import Mathlib

/-!
Verification development for the chatsync extension's extraction and
network-interception core.

The definitions below are a shallow embedding of the TypeScript sources:

* pure functions become Lean functions;
* JavaScript runtime exceptions (`TypeError` from property access on `null`,
  calling a string method on a non-string, iterating a non-iterable) are
  modelled by `Except Unit`;
* `JSON.parse` is modelled by an executable JSON reader returning
  `Option Json` (`none` = the exception branch of a `try/catch` around it);
* Node `Buffer` values are lists of byte values (`List Nat`);
* string lengths and slices are counted in code points.
-/

namespace ChatSync

/-! ## JavaScript value model -/

/-- A JSON value as produced by `JSON.parse`.  Numbers are kept exactly as
`mantissa * 10 ^ exp10` so the embedding stays decidable. -/
inductive Json where
  | null : Json
  | bool (b : Bool) : Json
  | num (mantissa : Int) (exp10 : Int) : Json
  | str (s : String) : Json
  | arr (elems : List Json) : Json
  | obj (fields : List (String × Json)) : Json

instance : Inhabited Json := ⟨Json.null⟩

/-- JavaScript truthiness of a value. -/
def Json.truthy : Json → Bool
  | .null => false
  | .bool b => b
  | .num m _ => m != 0
  | .str s => s != ""
  | .arr _ => true
  | .obj _ => true

/-- Truthiness of a possibly-undefined value (`none` = `undefined`). -/
def jsTruthy : Option Json → Bool
  | none => false
  | some v => v.truthy

/-- Later duplicate keys win, as in `JSON.parse`. -/
def lookupField (fields : List (String × Json)) (key : String) : Option Json :=
  ((fields.filter (fun f => f.1 == key)).getLast?).map (fun f => f.2)

/-- Property read `v[key]`.  Reading a property of `null` throws a
`TypeError`; reading an absent property of any other value yields
`undefined` (`none`).  None of the keys the parsers read exist on
primitives or arrays. -/
def jsGet (v : Json) (key : String) : Except Unit (Option Json) :=
  match v with
  | .null => .error ()
  | .obj fields => .ok (lookupField fields key)
  | _ => .ok none

/-- The `??` operator: falls through on `null` and `undefined` only. -/
def jsCoalesce (v : Option Json) (fallback : Option Json) : Option Json :=
  match v with
  | none => fallback
  | some .null => fallback
  | some w => some w

/-- Decimal rendering of `n * 10 ^ (-d)` with trailing zeros stripped. -/
def decimalString (n : Nat) (d : Nat) : String :=
  let intPart := n / 10 ^ d
  let fracPart := n % 10 ^ d
  if fracPart = 0 then toString intPart
  else
    let fracDigits := Nat.toDigits 10 fracPart
    let padded := List.replicate (d - fracDigits.length) '0' ++ fracDigits
    let trimmed := (padded.reverse.dropWhile (fun c => c == '0')).reverse
    toString intPart ++ "." ++ String.mk trimmed

/-- Rendering of a JSON number by `String(...)`. -/
def jsToStringNum (m : Int) (e : Int) : String :=
  let sign := if m < 0 then "-" else ""
  if 0 ≤ e then sign ++ toString (m.natAbs * 10 ^ e.toNat)
  else sign ++ decimalString m.natAbs e.natAbs

mutual

/-- The `String(...)` coercion; `Array.prototype.join` renders elements with
`jsStrList`, where `null` renders as the empty string. -/
def Json.jsStr : Json → String
  | .null => "null"
  | .bool b => if b then "true" else "false"
  | .num m e => jsToStringNum m e
  | .str s => s
  | .arr xs => String.intercalate "," (jsStrList xs)
  | .obj _ => "[object Object]"

def jsStrList : List Json → List String
  | [] => []
  | x :: xs =>
    (match x with
      | .null => ""
      | v => v.jsStr) :: jsStrList xs

end

/-- `Array.prototype.join(sep)` element coercion. -/
def jsJoin (xs : List Json) (sep : String) : String :=
  String.intercalate sep (jsStrList xs)

/-! ## Model of `JSON.parse` -/

def jsWhitespace (c : Char) : Bool :=
  c == ' ' || c == '\t' || c == '\n' || c == '\r'

def skipWs (cs : List Char) : List Char := cs.dropWhile jsWhitespace

def hexDigitVal? (c : Char) : Option Nat :=
  if '0' ≤ c ∧ c ≤ '9' then some (c.toNat - 48)
  else if 'a' ≤ c ∧ c ≤ 'f' then some (c.toNat - 87)
  else if 'A' ≤ c ∧ c ≤ 'F' then some (c.toNat - 55)
  else none

def parseHex4 : List Char → Option (Nat × List Char)
  | c1 :: c2 :: c3 :: c4 :: rest => do
    let v1 ← hexDigitVal? c1
    let v2 ← hexDigitVal? c2
    let v3 ← hexDigitVal? c3
    let v4 ← hexDigitVal? c4
    some (v1 * 4096 + v2 * 256 + v3 * 16 + v4, rest)
  | _ => none

def replacementChar : Char := Char.ofNat 0xFFFD

/-- Body of a JSON string literal (after the opening quote). -/
def jStringBody : Nat → List Char → List Char → Option (String × List Char)
  | 0, _, _ => none
  | fuel + 1, acc, cs =>
    match cs with
    | [] => none
    | '"' :: rest => some (String.mk acc.reverse, rest)
    | '\\' :: esc :: rest =>
      match esc with
      | '"' => jStringBody fuel ('"' :: acc) rest
      | '\\' => jStringBody fuel ('\\' :: acc) rest
      | '/' => jStringBody fuel ('/' :: acc) rest
      | 'b' => jStringBody fuel (Char.ofNat 8 :: acc) rest
      | 'f' => jStringBody fuel (Char.ofNat 12 :: acc) rest
      | 'n' => jStringBody fuel ('\n' :: acc) rest
      | 'r' => jStringBody fuel ('\r' :: acc) rest
      | 't' => jStringBody fuel ('\t' :: acc) rest
      | 'u' =>
        match parseHex4 rest with
        | none => none
        | some (n, rest1) =>
          if 0xD800 ≤ n ∧ n ≤ 0xDBFF then
            match rest1 with
            | '\\' :: 'u' :: rest2 =>
              match parseHex4 rest2 with
              | some (lo, rest3) =>
                if 0xDC00 ≤ lo ∧ lo ≤ 0xDFFF then
                  jStringBody fuel
                    (Char.ofNat (0x10000 + (n - 0xD800) * 1024 + (lo - 0xDC00)) :: acc) rest3
                else jStringBody fuel (replacementChar :: acc) rest1
              | none => jStringBody fuel (replacementChar :: acc) rest1
            | _ => jStringBody fuel (replacementChar :: acc) rest1
          else if 0xDC00 ≤ n ∧ n ≤ 0xDFFF then
            jStringBody fuel (replacementChar :: acc) rest1
          else jStringBody fuel (Char.ofNat n :: acc) rest1
      | _ => none
    | c :: rest =>
      if c.toNat < 0x20 then none else jStringBody fuel (c :: acc) rest

def digitsVal (ds : List Char) : Nat :=
  ds.foldl (fun a c => a * 10 + (c.toNat - 48)) 0

/-- JSON number grammar: `-? int frac? exp?`. -/
def parseJNumber (cs : List Char) : Option (Json × List Char) :=
  let signSplit : Bool × List Char :=
    match cs with
    | '-' :: r => (true, r)
    | _ => (false, cs)
  let neg := signSplit.1
  let cs1 := signSplit.2
  match cs1 with
  | [] => none
  | c :: rest0 =>
    if c = '0' ∨ c.isDigit = true then
      let intDigits := if c = '0' then [c] else cs1.takeWhile Char.isDigit
      let restInt := if c = '0' then rest0 else cs1.dropWhile Char.isDigit
      -- optional fraction
      let fracSplit : List Char × List Char × Bool :=
        match restInt with
        | '.' :: r =>
          let fd := r.takeWhile Char.isDigit
          (fd, r.dropWhile Char.isDigit, fd.isEmpty)
        | _ => ([], restInt, false)
      let fracDigits := fracSplit.1
      let restFrac := fracSplit.2.1
      let fracBad := fracSplit.2.2
      if fracBad then none
      else
        -- optional exponent
        let expSplit : Option Int × List Char × Bool :=
          match restFrac with
          | e :: r =>
            if e = 'e' ∨ e = 'E' then
              let signExp : Bool × List Char :=
                match r with
                | '+' :: r2 => (false, r2)
                | '-' :: r2 => (true, r2)
                | _ => (false, r)
              let ed := signExp.2.takeWhile Char.isDigit
              if ed.isEmpty then (none, restFrac, true)
              else
                let v : Int := Int.ofNat (digitsVal ed)
                (some (if signExp.1 then -v else v), signExp.2.dropWhile Char.isDigit, false)
            else (none, restFrac, false)
          | [] => (none, restFrac, false)
        if expSplit.2.2 then none
        else
          let expVal := (expSplit.1).getD 0
          let mantissaNat := digitsVal (intDigits ++ fracDigits)
          let mantissa : Int := if neg then -(Int.ofNat mantissaNat) else Int.ofNat mantissaNat
          some (Json.num mantissa (expVal - Int.ofNat fracDigits.length), expSplit.2.1)
    else none

mutual

def parseJValue : Nat → List Char → Option (Json × List Char)
  | 0, _ => none
  | fuel + 1, cs =>
    let cs := skipWs cs
    match cs with
    | 'n' :: 'u' :: 'l' :: 'l' :: rest => some (.null, rest)
    | 't' :: 'r' :: 'u' :: 'e' :: rest => some (.bool true, rest)
    | 'f' :: 'a' :: 'l' :: 's' :: 'e' :: rest => some (.bool false, rest)
    | '"' :: rest =>
      (jStringBody (rest.length + 1) [] rest).map (fun p => (Json.str p.1, p.2))
    | '[' :: rest =>
      match skipWs rest with
      | ']' :: r => some (.arr [], r)
      | _ => parseJElems fuel rest []
    | '{' :: rest =>
      match skipWs rest with
      | '}' :: r => some (.obj [], r)
      | _ => parseJFields fuel rest []
    | _ => parseJNumber cs

def parseJElems : Nat → List Char → List Json → Option (Json × List Char)
  | 0, _, _ => none
  | fuel + 1, cs, acc => do
    let (v, r) ← parseJValue fuel cs
    match skipWs r with
    | ',' :: r2 => parseJElems fuel r2 (v :: acc)
    | ']' :: r2 => some (Json.arr (v :: acc).reverse, r2)
    | _ => none

def parseJFields : Nat → List Char → List (String × Json) → Option (Json × List Char)
  | 0, _, _ => none
  | fuel + 1, cs, acc =>
    match skipWs cs with
    | '"' :: rest => do
      let (key, r) ← jStringBody (rest.length + 1) [] rest
      match skipWs r with
      | ':' :: r2 => do
        let (v, r3) ← parseJValue fuel r2
        match skipWs r3 with
        | ',' :: r4 => parseJFields fuel r4 ((key, v) :: acc)
        | '}' :: r4 => some (Json.obj ((key, v) :: acc).reverse, r4)
        | _ => none
      | _ => none
    | _ => none

end

/-- Model of `JSON.parse` under `try/catch`: `none` is the exception branch. -/
def jsonParseChars (cs : List Char) : Option Json :=
  match parseJValue (2 * cs.length + 8) cs with
  | some (v, rest) => if (skipWs rest).isEmpty then some v else none
  | none => none

def jsonParse (s : String) : Option Json := jsonParseChars s.data

/-! ## JavaScript string operations

Modelled on code-point lists so that everything reduces definitionally. -/

/-- `String.prototype.split(sep)` for a one-character separator. -/
def splitOnChar (sep : Char) : List Char → List (List Char)
  | [] => [[]]
  | c :: rest =>
    let r := splitOnChar sep rest
    if c == sep then [] :: r
    else
      match r with
      | h :: t => (c :: h) :: t
      | [] => [[c]]

/-- `String.prototype.trim` (restricted to the ASCII whitespace the code
ever meets). -/
def trimChars (cs : List Char) : List Char :=
  ((cs.dropWhile jsWhitespace).reverse.dropWhile jsWhitespace).reverse

def startsWithChars : List Char → List Char → Bool
  | [], _ => true
  | _ :: _, [] => false
  | p :: ps, c :: cs => p == c && startsWithChars ps cs

def lowerChars (cs : List Char) : List Char := cs.map Char.toLower

def strLower (s : String) : String := String.mk (lowerChars s.data)

example : jsonParse "null" = some Json.null := by rfl

example : jsonParse " \x7b\"a\":1\x7d " = some (Json.obj [("a", Json.num 1 0)]) := by rfl

example : jsonParse "not-json" = none := by rfl

example : jsonParse "[1,\"x\",true,\x7b\x7d]" =
    some (Json.arr [Json.num 1 0, Json.str "x", Json.bool true, Json.obj []]) := by rfl

example : jsonParse "\x7b\"a\":-1.50e2\x7d" =
    some (Json.obj [("a", Json.num (-150) 0)]) := by rfl

/-! ## SHA-256, the model of `crypto.createHash("sha256")` -/

def w32 (x : Nat) : Nat := x % 4294967296

def rotr32 (x n : Nat) : Nat := w32 (Nat.lor (x >>> n) (x <<< (32 - n)))

def xor3 (a b c : Nat) : Nat := Nat.xor (Nat.xor a b) c

def compl32 (x : Nat) : Nat := Nat.xor 0xffffffff (w32 x)

structure Sha256State where
  a : Nat
  b : Nat
  c : Nat
  d : Nat
  e : Nat
  f : Nat
  g : Nat
  h : Nat

def sha256K : List Nat :=
  [1116352408, 1899447441, 3049323471, 3921009573, 961987163, 1508970993,
   2453635748, 2870763221, 3624381080, 310598401, 607225278, 1426881987,
   1925078388, 2162078206, 2614888103, 3248222580, 3835390401, 4022224774,
   264347078, 604807628, 770255983, 1249150122, 1555081692, 1996064986,
   2554220882, 2821834349, 2952996808, 3210313671, 3336571891, 3584528711,
   113926993, 338241895, 666307205, 773529912, 1294757372, 1396182291,
   1695183700, 1986661051, 2177026350, 2456956037, 2730485921, 2820302411,
   3259730800, 3345764771, 3516065817, 3600352804, 4094571909, 275423344,
   430227734, 506948616, 659060556, 883997877, 958139571, 1322822218,
   1537002063, 1747873779, 1955562222, 2024104815, 2227730452, 2361852424,
   2428436474, 2756734187, 3204031479, 3329325298]

def sha256InitState : Sha256State :=
  ⟨1779033703, 3144134277, 1013904242, 2773480762,
   1359893119, 2600822924, 528734635, 1541459225⟩

/-- Extends the reversed message schedule by `n` further words. -/
def scheduleRev : Nat → List Nat → List Nat
  | 0, acc => acc
  | n + 1, acc =>
    let wm2 := acc.getD 1 0
    let wm7 := acc.getD 6 0
    let wm15 := acc.getD 14 0
    let wm16 := acc.getD 15 0
    let s0 := xor3 (rotr32 wm15 7) (rotr32 wm15 18) (wm15 >>> 3)
    let s1 := xor3 (rotr32 wm2 17) (rotr32 wm2 19) (wm2 >>> 10)
    scheduleRev n (w32 (wm16 + s0 + wm7 + s1) :: acc)

def msgSchedule (block : List Nat) : List Nat :=
  (scheduleRev 48 block.reverse).reverse

def sha256Round (st : Sha256State) (kw : Nat × Nat) : Sha256State :=
  let s1 := xor3 (rotr32 st.e 6) (rotr32 st.e 11) (rotr32 st.e 25)
  let ch := Nat.xor (Nat.land st.e st.f) (Nat.land (compl32 st.e) st.g)
  let temp1 := w32 (st.h + s1 + ch + kw.1 + kw.2)
  let s0 := xor3 (rotr32 st.a 2) (rotr32 st.a 13) (rotr32 st.a 22)
  let maj := xor3 (Nat.land st.a st.b) (Nat.land st.a st.c) (Nat.land st.b st.c)
  let temp2 := w32 (s0 + maj)
  ⟨w32 (temp1 + temp2), st.a, st.b, st.c, w32 (st.d + temp1), st.e, st.f, st.g⟩

def addStates (x y : Sha256State) : Sha256State :=
  ⟨w32 (x.a + y.a), w32 (x.b + y.b), w32 (x.c + y.c), w32 (x.d + y.d),
   w32 (x.e + y.e), w32 (x.f + y.f), w32 (x.g + y.g), w32 (x.h + y.h)⟩

def compressBlock (st : Sha256State) (block : List Nat) : Sha256State :=
  addStates st ((sha256K.zip (msgSchedule block)).foldl sha256Round st)

def bytesToWords : List Nat → List Nat
  | b0 :: b1 :: b2 :: b3 :: rest =>
    (((b0 * 256 + b1) * 256 + b2) * 256 + b3) :: bytesToWords rest
  | _ => []

/-- Splits into blocks of 64 bytes.  The fuel argument only bounds the
recursion: every step consumes at least one element, so `l.length` fuel is
always enough. -/
def chunksOf64Go : Nat → List Nat → List (List Nat)
  | 0, _ => []
  | fuel + 1, l => if l.isEmpty then [] else l.take 64 :: chunksOf64Go fuel (l.drop 64)

def chunksOf64 (l : List Nat) : List (List Nat) := chunksOf64Go l.length l

/-- The `count` low-order bytes of `n`, most significant first. -/
def bytesBE (n : Nat) : Nat → List Nat
  | 0 => []
  | k + 1 => bytesBE (n / 256) k ++ [n % 256]

def sha256Pad (msg : List Nat) : List Nat :=
  let len := msg.length
  let zeros := (64 - ((len + 9) % 64)) % 64
  msg ++ 0x80 :: List.replicate zeros 0 ++ bytesBE (len * 8) 8

def sha256Bytes (msg : List Nat) : List Nat :=
  let fin := (chunksOf64 (sha256Pad msg)).foldl
    (fun st block => compressBlock st (bytesToWords block)) sha256InitState
  bytesBE fin.a 4 ++ bytesBE fin.b 4 ++ bytesBE fin.c 4 ++ bytesBE fin.d 4 ++
    bytesBE fin.e 4 ++ bytesBE fin.f 4 ++ bytesBE fin.g 4 ++ bytesBE fin.h 4

def hexAlphabet : List Char := "0123456789abcdef".data

def hexDigitChar (n : Nat) : Char := hexAlphabet.getD n '0'

def byteToHexChars (b : Nat) : List Char :=
  [hexDigitChar (b / 16 % 16), hexDigitChar (b % 16)]

def bytesToHexChars (bs : List Nat) : List Char := bs.flatMap byteToHexChars

/-- UTF-8 encoding of one character. -/
def charUtf8 (c : Char) : List Nat :=
  let n := c.toNat
  if n < 0x80 then [n]
  else if n < 0x800 then [0xC0 + n / 64, 0x80 + n % 64]
  else if n < 0x10000 then [0xE0 + n / 4096, 0x80 + n / 64 % 64, 0x80 + n % 64]
  else [0xF0 + n / 262144, 0x80 + n / 4096 % 64, 0x80 + n / 64 % 64, 0x80 + n % 64]

def utf8Encode (s : String) : List Nat := s.data.flatMap charUtf8

example : Json.jsStr (Json.arr [Json.str "a", Json.num 5 0, Json.null]) = "a,5," := by rfl

def sha256HexChars (s : String) : List Char :=
  bytesToHexChars (sha256Bytes (utf8Encode s))

def sha256Hex (s : String) : String := String.mk (sha256HexChars s)

example : sha256Hex "abc" =
    "ba7816bf8f01cfea414140de5dae2223b00361a396177a9cb410ff61f20015ad" := by rfl

example : sha256Hex "" =
    "e3b0c44298fc1c149afbf4c8996fb92427ae41e4649b934ca495991b7852b855" := by rfl

/-! ## Deterministic identifiers -/

def hexVal (c : Char) : Nat := (hexDigitVal? c).getD 0

/-- `BaseExtractor.deterministicId`: SHA-256 of the input formatted as a
UUID-v4-like string (groups 8-4-4-4-12, skipping hex digit 12 and forcing
the version and variant nibbles). -/
def uuidFormat (hash : List Char) : List Char :=
  hash.take 8 ++ '-' ::
    ((hash.drop 8).take 4 ++ '-' ::
      (('4' :: (hash.drop 13).take 3) ++ '-' ::
        ((hexDigitChar (Nat.lor (Nat.land (hexVal (hash.getD 16 '0')) 0x3) 0x8) ::
            (hash.drop 17).take 3) ++ '-' ::
          (hash.drop 20).take 12)))

def deterministicIdChars (input : String) : List Char :=
  uuidFormat (sha256HexChars input)

def deterministicId (input : String) : String :=
  String.mk (deterministicIdChars input)

/-- `generateConversationId` from the interceptor parser registry: SHA-256 of
`source:minuteKey:userMessage` truncated to 16 hex digits with an `int-`
prefix, where `minuteKey = floor(timestamp / 60000)`. -/
def generateConversationId (source : String) (userMessage : String)
    (timestamp : Nat) : String :=
  let minuteKey := timestamp / 60000
  let hash :=
    String.mk ((sha256HexChars (source ++ ":" ++ toString minuteKey ++ ":" ++ userMessage)).take 16)
  "int-" ++ hash

/-- Spec-side predicate: a string laid out as five lowercase-hex groups of
sizes 8, 4, 4, 4 and 12 separated by dashes. -/
def isHexLower (c : Char) : Bool :=
  ('0' ≤ c && c ≤ '9') || ('a' ≤ c && c ≤ 'f')

def hexRun : Nat → List Char → Option (List Char)
  | 0, cs => some cs
  | _ + 1, [] => none
  | n + 1, c :: cs => if isHexLower c then hexRun n cs else none

def uuidLayout (s : String) : Bool :=
  match hexRun 8 s.data with
  | some ('-' :: r1) =>
    match hexRun 4 r1 with
    | some ('-' :: r2) =>
      match hexRun 4 r2 with
      | some ('-' :: r3) =>
        match hexRun 4 r3 with
        | some ('-' :: r4) => hexRun 12 r4 == some []
        | _ => false
      | _ => false
    | _ => false
  | _ => false

set_option maxRecDepth 8192 in
example : uuidLayout (deterministicId "copilot:/tmp/db:session-1") = true := by rfl

set_option maxRecDepth 8192 in
example : uuidLayout (generateConversationId "copilot" "hello" 0) = false := by rfl

/-! ## `Date.toISOString` model (for non-negative epoch milliseconds) -/

def isLeapYear (y : Nat) : Bool := (y % 4 == 0 && y % 100 != 0) || y % 400 == 0

def daysInYear (y : Nat) : Nat := if isLeapYear y then 366 else 365

def monthLengths (y : Nat) : List Nat :=
  [31, if isLeapYear y then 29 else 28, 31, 30, 31, 30, 31, 31, 30, 31, 30, 31]

def yearFromDaysGo : Nat → Nat → Nat → Nat × Nat
  | 0, y, d => (y, d)
  | fuel + 1, y, d =>
    if d < daysInYear y then (y, d) else yearFromDaysGo fuel (y + 1) (d - daysInYear y)

def monthFromDayOfYear : List Nat → Nat → Nat → Nat × Nat
  | [], m, d => (m, d)
  | len :: rest, m, d =>
    if d < len then (m, d) else monthFromDayOfYear rest (m + 1) (d - len)

def pad2 (n : Nat) : String := if n < 10 then "0" ++ toString n else toString n

def pad3 (n : Nat) : String :=
  if n < 10 then "00" ++ toString n else if n < 100 then "0" ++ toString n else toString n

/-- `new Date(ms).toISOString()` for a non-negative millisecond timestamp. -/
def toISOString (ms : Nat) : String :=
  let days := ms / 86400000
  let msOfDay := ms % 86400000
  let yd := yearFromDaysGo (days / 365 + 2) 1970 days
  let md := monthFromDayOfYear (monthLengths yd.1) 1 yd.2
  toString yd.1 ++ "-" ++ pad2 md.1 ++ "-" ++ pad2 (md.2 + 1) ++ "T" ++
    pad2 (msOfDay / 3600000) ++ ":" ++ pad2 (msOfDay / 60000 % 60) ++ ":" ++
    pad2 (msOfDay / 1000 % 60) ++ "." ++ pad3 (msOfDay % 1000) ++ "Z"

example : toISOString 0 = "1970-01-01T00:00:00.000Z" := by rfl

set_option maxRecDepth 8192 in
example : toISOString 1700000000000 = "2023-11-14T22:13:20.000Z" := by rfl

/-! ## Interceptor data model (src/interceptor/types.ts) -/

inductive AIProvider where
  | openai : AIProvider
  | google : AIProvider
  | anthropic : AIProvider
deriving DecidableEq

/-- A registered AI API endpoint pattern.  The source field `pathPrefix` is
named `pathPref` here. -/
structure AIEndpoint where
  provider : AIProvider
  hostname : String
  pathPref : String
  label : String

structure InterceptedRequest where
  method : String
  hostname : String
  path : String
  endpoint : AIEndpoint
  body : String
  timestamp : Nat

structure InterceptedResponse where
  statusCode : Nat
  body : String
  isStreaming : Bool
  timestamp : Nat

structure InterceptedExchange where
  request : InterceptedRequest
  response : InterceptedResponse

inductive Role where
  | user : Role
  | assistant : Role
  | system : Role
deriving DecidableEq

instance : BEq Role := ⟨fun a b => decide (a = b)⟩

/-- A parsed message.  The `content` field keeps the raw JavaScript value the
parser stored (the TypeScript type says `string`, but the code pushes the
untyped JSON field). -/
structure ParsedMessage where
  role : Role
  content : Json

structure ParsedChatExchange where
  provider : AIProvider
  model : Option Json
  userMessages : List ParsedMessage
  assistantMessage : Option ParsedMessage

/-! ## Endpoint registry (endpoint-registry.ts) -/

def ENDPOINTS : List AIEndpoint :=
  [⟨.openai, "api.openai.com", "/v1/chat/completions", "OpenAI Chat"⟩,
   ⟨.openai, "api.githubcopilot.com", "/chat/completions", "GitHub Copilot"⟩,
   ⟨.openai, "copilot-proxy.githubusercontent.com", "/v1/chat/completions", "Copilot Proxy"⟩,
   ⟨.google, "generativelanguage.googleapis.com", "/", "Gemini"⟩,
   ⟨.google, "us-central1-aiplatform.googleapis.com", "/v1/projects/", "Vertex AI"⟩,
   ⟨.google, "autopush-generativelanguage.googleapis.com", "/", "Gemini (Autopush)"⟩,
   ⟨.anthropic, "api.anthropic.com", "/v1/messages", "Anthropic Messages"⟩]

/-- The `byHostname` index: grouping by hostname preserves registration
order, so the candidate list equals a filter of `ENDPOINTS`. -/
def endpointCandidates (hostname : String) : List AIEndpoint :=
  ENDPOINTS.filter (fun ep => ep.hostname == hostname)

/-- `matchEndpoint`.  `hostname`/`path` are `string | undefined` in the
source; the falsy guard collapses `undefined` and `""`. -/
def matchEndpoint (hostname path : String) : Option AIEndpoint :=
  if hostname == "" || path == "" then none
  else (endpointCandidates hostname).find? (fun ep => startsWithChars ep.pathPref.data path.data)

example : (matchEndpoint "api.openai.com" "/v1/chat/completions").map (fun e => e.label) =
    some "OpenAI Chat" := by rfl

example : matchEndpoint "example.com" "/v1/chat/completions" = none := by rfl

/-! ## Body collector (stream-collector.ts) -/

structure BodyCollector where
  maxBytes : Nat
  chunks : List (List Nat)
  totalBytes : Nat
  truncated : Bool

def BodyCollector.init (maxBytes : Nat) : BodyCollector := ⟨maxBytes, [], 0, false⟩

/-- `BodyCollector.push`: append a chunk; returns `false` once full. -/
def BodyCollector.push (c : BodyCollector) (buf : List Nat) : Bool × BodyCollector :=
  if c.truncated then (false, c)
  else if c.maxBytes < c.totalBytes + buf.length then
    let remaining := c.maxBytes - c.totalBytes
    if 0 < remaining then
      (false, { c with chunks := c.chunks ++ [buf.take remaining],
                       totalBytes := c.maxBytes, truncated := true })
    else (false, { c with truncated := true })
  else (true, { c with chunks := c.chunks ++ [buf], totalBytes := c.totalBytes + buf.length })

/-- The bytes a later `toString()` would materialize. -/
def BodyCollector.collected (c : BodyCollector) : List Nat := c.chunks.flatMap id

def BodyCollector.isTruncated (c : BodyCollector) : Bool := c.truncated

def BodyCollector.size (c : BodyCollector) : Nat := c.totalBytes

def BodyCollector.pushAll (c : BodyCollector) (bufs : List (List Nat)) : BodyCollector :=
  bufs.foldl (fun st b => (st.push b).2) c

/-! ## SSE event parsing (stream-collector.ts) -/

def parseSSEEvents (raw : String) : List Json :=
  (splitOnChar '\n' raw.data).foldl
    (fun results line =>
      let trimmed := trimChars line
      if startsWithChars "data:".data trimmed then
        let payload := trimChars (trimmed.drop 5)
        if payload == "[DONE]".data then results
        else
          match jsonParseChars payload with
          | some j => results ++ [j]
          | none => results
      else results)
    []

def strIncludes (s pat : String) : Bool := (s.splitOn pat).length > 1

def isSSEContentType (contentType : Option String) : Bool :=
  match contentType with
  | none => false
  | some ct => strIncludes ct "text/event-stream" || strIncludes ct "text/x-sse"

example :
    parseSSEEvents "data: \x7b\"a\":1\x7d\n\ndata: [DONE]\n\ndata: not-json\n\ndata: \x7b\"a\":2\x7d\n" =
      [Json.obj [("a", Json.num 1 0)], Json.obj [("a", Json.num 2 0)]] := by rfl

/-! ## Small JavaScript runtime helpers used by the parsers -/

/-- `x.toLowerCase()`: only strings have the method; any other receiver
throws a `TypeError`. -/
def jsToLowerCase (v : Json) : Except Unit String :=
  match v with
  | .str s => .ok (strLower s)
  | _ => .error ()

/-- Strict equality against a string literal (`v === "lit"`). -/
def jsStrictEqStr (v : Option Json) (lit : String) : Bool :=
  match v with
  | some (.str s) => s == lit
  | _ => false

/-- `for (const x of v)`: arrays iterate their elements, strings their
characters; other non-null values throw a `TypeError`. -/
def jsIterate (v : Json) : Except Unit (List Json) :=
  match v with
  | .arr xs => .ok xs
  | .str s => .ok (s.data.map (fun c => Json.str (String.mk [c])))
  | _ => .error ()

/-- Optional chaining `v?.key`: `null`/`undefined` short-circuit to
`undefined`, other receivers read the property. -/
def jsOptChain (v : Option Json) (key : String) : Except Unit (Option Json) :=
  match v with
  | none => .ok none
  | some .null => .ok none
  | some w => jsGet w key

/-- Property read on a value that is known not to be `null` (used inside
`try` blocks after the null case has already thrown). -/
def jsGetD (v : Json) (key : String) : Option Json :=
  match v with
  | .obj fields => lookupField fields key
  | _ => none

/-- Non-throwing `v?.key` on known-non-null receivers. -/
def jsOptChainD (v : Option Json) (key : String) : Option Json :=
  match v with
  | none => none
  | some .null => none
  | some w => jsGetD w key

/-- `v?.[0]`: first array element, first character of a string, or the
property named `"0"` of an object receiver. -/
def jsIndex0 (v : Option Json) : Option Json :=
  match v with
  | some (.arr (x :: _)) => some x
  | some (.str s) =>
    match s.data with
    | c :: _ => some (.str (String.mk [c]))
    | [] => none
  | some (.obj fs) => lookupField fs "0"
  | _ => none

/-- String concatenation `acc + v` where `acc` is a string so far. -/
def jsPlusStr (acc : Json) (v : Json) : Json := .str (acc.jsStr ++ v.jsStr)

/-! ## OpenAI parser (src/interceptor/parsers/openai-parser.ts) -/

def roleOfLowered (s : String) : Option Role :=
  if s == "user" then some .user
  else if s == "assistant" then some .assistant
  else if s == "system" then some .system
  else none

/-- `normalizeRole` of the OpenAI parser: unconditionally calls
`role.toLowerCase()`, throwing when the runtime value is not a string. -/
def openaiNormalizeRole (v : Json) : Except Unit (Option Role) := do
  let lowered ← jsToLowerCase v
  .ok (roleOfLowered lowered)

/-- The body of one iteration of the request loop:
`if (msg.role && msg.content)`, then `normalizeRole`; the raw `content`
value is pushed. -/
def openaiMessageStep (msg : Json) (roleV : Option Json) :
    Except Unit (Option ParsedMessage) := do
  if jsTruthy roleV then
    let contentV ← jsGet msg "content"
    if jsTruthy contentV then do
      match ← openaiNormalizeRole (roleV.getD .null) with
      | some r => pure (some (⟨r, contentV.getD .null⟩ : ParsedMessage))
      | none => pure none
    else pure none
  else pure none

/-- The request loop of `parseOpenAIExchange`. -/
def openaiCollectMessages : List Json → Except Unit (List ParsedMessage)
  | [] => .ok []
  | msg :: rest => do
    let roleV ← jsGet msg "role"
    let step ← openaiMessageStep msg roleV
    let others ← openaiCollectMessages rest
    match step with
    | some m => .ok (m :: others)
    | none => .ok others

/-- Request-side phase of `parseOpenAIExchange`: parse the body, require a
`messages` array, collect messages, reject when none survive; also read
`model` and `stream`. -/
def openaiRequestPhase (body : String) :
    Except Unit (Option (List ParsedMessage × Option Json × Bool)) := do
  match jsonParse body with
  | none => .ok none
  | some request => do
    match ← jsGet request "messages" with
    | some (.arr msgs) => do
      let userMessages ← openaiCollectMessages msgs
      if userMessages.isEmpty then .ok none
      else do
        let modelV ← jsGet request "model"
        let streamV ← jsGet request "stream"
        .ok (some (userMessages, jsCoalesce modelV none, jsTruthy streamV))
    | _ => .ok none

/-- One streaming SSE event: `resp.model` throws on a `null` event,
`resp.choices` is iterated with `for..of`, `choice.delta` throws on a `null`
choice; deltas are appended with string coercion. -/
def openaiStreamEvent (st : Option Json × Json) (event : Json) :
    Except Unit (Option Json × Json) := do
  let modelV ← jsGet event "model"
  let model := if jsTruthy modelV then modelV else st.1
  let choicesV ← jsGet event "choices"
  if jsTruthy choicesV then do
    let choices ← jsIterate (choicesV.getD .null)
    let content ← choices.foldlM (fun content choice => do
        let deltaV ← jsGet choice "delta"
        let contentV ← jsOptChain deltaV "content"
        if jsTruthy contentV then .ok (jsPlusStr content (contentV.getD .null))
        else .ok content) st.2
    .ok (model, content)
  else .ok (model, st.2)

def openaiStreamingPhase (respBody : String) (model0 : Option Json) :
    Except Unit (Option Json × Json) :=
  (parseSSEEvents respBody).foldlM openaiStreamEvent (model0, Json.str "")

/-- Non-streaming response: the whole block is inside `try/catch`; the only
throwing step is `resp.model` on a `null` document, which happens before any
mutation.  Note the raw `choices[0].message.content` value is assigned. -/
def openaiNonStreamingPhase (respBody : String) (model0 : Option Json) :
    Option Json × Json :=
  match jsonParse respBody with
  | none => (model0, Json.str "")
  | some .null => (model0, Json.str "")
  | some resp =>
    let modelV := jsGetD resp "model"
    let model := if jsTruthy modelV then modelV else model0
    let contentV := jsOptChainD (jsOptChainD (jsIndex0 (jsGetD resp "choices")) "message") "content"
    let content := if jsTruthy contentV then contentV.getD .null else Json.str ""
    (model, content)

/-- `parseOpenAIExchange`. -/
def parseOpenAIExchange (exchange : InterceptedExchange) :
    Except Unit (Option ParsedChatExchange) := do
  match ← openaiRequestPhase exchange.request.body with
  | none => .ok none
  | some (userMessages, model0, streamReq) => do
    let mc ←
      if exchange.response.isStreaming || streamReq then
        openaiStreamingPhase exchange.response.body model0
      else .ok (openaiNonStreamingPhase exchange.response.body model0)
    let assistantMessage : Option ParsedMessage :=
      if mc.2.truthy then some ⟨.assistant, mc.2⟩ else none
    .ok (some ⟨.openai, mc.1, userMessages, assistantMessage⟩)

/-! ## Google parser (google-parser.ts) -/

/-- `normalizeGoogleRole`: `role?.toLowerCase()` — `null`/`undefined` fall to
the default case, truthy-or-falsy non-strings throw. -/
def googleNormalizeRole (v : Option Json) : Except Unit (Option Role) :=
  match v with
  | none => .ok none
  | some .null => .ok none
  | some (.str s) =>
    let l := strLower s
    .ok (if l == "user" then some .user
         else if l == "model" then some .assistant
         else if l == "system" then some .system
         else none)
  | some _ => .error ()

/-- `extractPartsText`: empty string for falsy `parts`; `.filter` throws on
truthy non-arrays; `p.text` throws on a `null` part; `p.text != null` keeps
null-ish-free values; `.join("")` coerces elements. -/
def extractPartsText (parts : Option Json) : Except Unit String := do
  if !(jsTruthy parts) then .ok ""
  else
    match parts.getD .null with
    | .arr xs => do
      let texts ← xs.foldlM (fun acc p => do
          match ← jsGet p "text" with
          | none => .ok acc
          | some .null => .ok acc
          | some t => .ok (acc ++ [t])) ([] : List Json)
      .ok (jsJoin texts "")
    | _ => .error ()

/-- `extractCandidateText`: `resp.candidates` throws on a `null` response;
`.map` throws on truthy non-arrays; `c.content` throws on a `null`
candidate. -/
def extractCandidateText (resp : Json) : Except Unit String := do
  let candidatesV ← jsGet resp "candidates"
  if !(jsTruthy candidatesV) then .ok ""
  else
    match candidatesV.getD .null with
    | .arr cs => do
      let texts ← cs.mapM (fun c => do
          let contentV ← jsGet c "content"
          let partsV ← jsOptChain contentV "parts"
          extractPartsText partsV)
      .ok (String.join texts)
    | _ => .error ()

/-- The regex `/\/models\/([^/:]+)/` of `extractModelFromPath`: leftmost
position where `/models/` is followed by at least one char other than `/`
and `:`. -/
def extractModelFromPathGo : List Char → Option String
  | [] => none
  | c :: rest =>
    let here :=
      if startsWithChars "/models/".data (c :: rest) then
        let captured := ((c :: rest).drop 8).takeWhile (fun d => d != '/' && d != ':')
        if captured.isEmpty then none else some (String.mk captured)
      else none
    match here with
    | some m => some m
    | none => extractModelFromPathGo rest

def extractModelFromPath (path : String) : Option String :=
  extractModelFromPathGo path.data

/-- The request loop of `parseGoogleExchange`: `content.role` throws on a
`null` entry; both role and text are computed before the push guard. -/
def googleCollectMessages : List Json → Except Unit (List ParsedMessage)
  | [] => .ok []
  | content :: rest => do
    let roleV ← jsGet content "role"
    let role? ← googleNormalizeRole roleV
    let partsV ← jsGet content "parts"
    let text ← extractPartsText partsV
    let others ← googleCollectMessages rest
    match role? with
    | some r => if text == "" then .ok others else .ok (⟨r, .str text⟩ :: others)
    | none => .ok others

/-- The SSE streaming loop (not wrapped in `try`, so exceptions escape). -/
def googleStreamEvents (events : List Json) (st : Option Json × String) :
    Except Unit (Option Json × String) :=
  events.foldlM (fun st event => do
      let t ← extractCandidateText event
      let mvV ← jsGet event "modelVersion"
      .ok (if jsTruthy mvV then mvV else st.1, st.2 ++ t)) st

/-- The bracketed-JSON-array loop, which sits inside `try/catch`: a throw
stops the loop but keeps the mutations of earlier iterations. -/
def googleArrLoopCaught : List Json → Option Json × String → Option Json × String
  | [], st => st
  | item :: rest, st =>
    match (do
        let t ← extractCandidateText item
        let mvV ← jsGet item "modelVersion"
        pure (t, mvV) : Except Unit (String × Option Json)) with
    | .error _ => st
    | .ok (t, mvV) =>
      googleArrLoopCaught rest (if jsTruthy mvV then mvV else st.1, st.2 ++ t)

def googleStreamingPhase (respBody : String) (model0 : Option Json) :
    Except Unit (Option Json × String) := do
  let events := parseSSEEvents respBody
  if events.length > 0 then googleStreamEvents events (model0, "")
  else
    .ok (match jsonParse respBody with
      | some (.arr items) => googleArrLoopCaught items (model0, "")
      | _ => (model0, ""))

/-- The non-streaming branch: the body is trimmed, then parsed inside
`try/catch`; both the array loop and the single-document path degrade to the
state reached before the throw. -/
def googleNonStreamingPhase (respBody : String) (model0 : Option Json) :
    Option Json × String :=
  match jsonParseChars (trimChars respBody.data) with
  | none => (model0, "")
  | some (.arr items) => googleArrLoopCaught items (model0, "")
  | some v =>
    match (do
        let t ← extractCandidateText v
        let mvV ← jsGet v "modelVersion"
        pure (t, mvV) : Except Unit (String × Option Json)) with
    | .error _ => (model0, "")
    | .ok (t, mvV) => (if jsTruthy mvV then mvV else model0, t)

/-- Request-side phase of `parseGoogleExchange`: parse the body, require a
`contents` array, collect messages, reject when none survive; also read the
request `model` (already `??`-coalesced). -/
def googleRequestPhase (body : String) :
    Except Unit (Option (List ParsedMessage × Option Json)) := do
  match jsonParse body with
  | none => .ok none
  | some request => do
    match ← jsGet request "contents" with
    | some (.arr contents) => do
      let userMessages ← googleCollectMessages contents
      if userMessages.isEmpty then .ok none
      else do
        let modelReqV ← jsGet request "model"
        .ok (some (userMessages, jsCoalesce modelReqV none))
    | _ => .ok none

/-- `parseGoogleExchange`. -/
def parseGoogleExchange (exchange : InterceptedExchange) :
    Except Unit (Option ParsedChatExchange) := do
  match ← googleRequestPhase exchange.request.body with
  | none => .ok none
  | some (userMessages, modelReq) => do
    let model0 : Option Json :=
      match modelReq with
      | some v => some v
      | none => (extractModelFromPath exchange.request.path).map Json.str
    let mc ←
      if exchange.response.isStreaming then
        googleStreamingPhase exchange.response.body model0
      else .ok (googleNonStreamingPhase exchange.response.body model0)
    let assistantMessage : Option ParsedMessage :=
      if mc.2 == "" then none else some ⟨.assistant, .str mc.2⟩
    .ok (some ⟨.google, mc.1, userMessages, assistantMessage⟩)

/-! ## Anthropic parser (anthropic-parser.ts) -/

/-- `normalizeRole` of the Anthropic parser (`role?.toLowerCase()`). -/
def anthropicNormalizeRole (v : Option Json) : Except Unit (Option Role) :=
  match v with
  | none => .ok none
  | some .null => .ok none
  | some (.str s) => .ok (roleOfLowered (strLower s))
  | some _ => .error ()

/-- Shared `blocks.filter(b => b.type === "text" && b.text).map(b =>
b.text!).join("")` computation; `block.type` throws on a `null` block. -/
def anthropicBlocksText (blocks : List Json) : Except Unit String := do
  let texts ← blocks.foldlM (fun acc block => do
      let typeV ← jsGet block "type"
      let textV ← jsGet block "text"
      if jsStrictEqStr typeV "text" && jsTruthy textV then
        .ok (acc ++ [textV.getD .null])
      else .ok acc) ([] : List Json)
  .ok (jsJoin texts "")

/-- `extractMessageContent`: a string content is returned as-is (even when
empty); array contents are joined; the join result falls back to `null` when
empty (`text || null`). -/
def anthropicExtractContent (msg : Json) : Except Unit (Option String) := do
  match ← jsGet msg "content" with
  | some (.str s) => .ok (some s)
  | some (.arr blocks) => do
    let text ← anthropicBlocksText blocks
    .ok (if text == "" then none else some text)
  | _ => .ok none

/-- The request loop of `parseAnthropicExchange`: role and content are both
computed (and may throw) before the `if (role && content)` guard. -/
def anthropicCollectMessages : List Json → Except Unit (List ParsedMessage)
  | [] => .ok []
  | msg :: rest => do
    let roleV ← jsGet msg "role"
    let role? ← anthropicNormalizeRole roleV
    let content? ← anthropicExtractContent msg
    let others ← anthropicCollectMessages rest
    match role?, content? with
    | some r, some text =>
      if text == "" then .ok others else .ok (⟨r, .str text⟩ :: others)
    | _, _ => .ok others

/-- One Anthropic streaming event; `streamEvent.type` throws on `null`
events, the three `if` blocks run in source order. -/
def anthropicStreamEvent (st : Option Json × String) (event : Json) :
    Except Unit (Option Json × String) := do
  let typeV ← jsGet event "type"
  let st ←
    if jsStrictEqStr typeV "message_start" then do
      let messageV ← jsGet event "message"
      let mV ← jsOptChain messageV "model"
      pure (if jsTruthy mV then (mV, st.2) else st)
    else pure st
  let st ←
    if jsStrictEqStr typeV "content_block_delta" then do
      let deltaV ← jsGet event "delta"
      let dTypeV ← jsOptChain deltaV "type"
      if jsStrictEqStr dTypeV "text_delta" then do
        let dTextV ← jsOptChain deltaV "text"
        if jsTruthy dTextV then pure (st.1, st.2 ++ (dTextV.getD .null).jsStr)
        else pure st
      else pure st
    else pure st
  if jsStrictEqStr typeV "content_block_start" then do
    let cbV ← jsGet event "content_block"
    let cbTextV ← jsOptChain cbV "text"
    if jsTruthy cbTextV then pure (st.1, st.2 ++ (cbTextV.getD .null).jsStr)
    else pure st
  else pure st

def anthropicStreamingPhase (respBody : String) (model0 : Option Json) :
    Except Unit (Option Json × String) :=
  (parseSSEEvents respBody).foldlM anthropicStreamEvent (model0, "")

/-- The non-streaming branch (inside `try/catch`): `resp.model` throws on a
`null` document before any mutation; a throw in the `resp.content` pipeline
keeps the already-updated `model`. -/
def anthropicNonStreamingPhase (respBody : String) (model0 : Option Json) :
    Option Json × String :=
  match jsonParse respBody with
  | none => (model0, "")
  | some .null => (model0, "")
  | some resp =>
    let modelV := jsGetD resp "model"
    let model := if jsTruthy modelV then modelV else model0
    let contentV := jsGetD resp "content"
    if jsTruthy contentV then
      match (match contentV.getD .null with
        | .arr blocks => anthropicBlocksText blocks
        | _ => .error () : Except Unit String) with
      | .ok t => (model, t)
      | .error _ => (model, "")
    else (model, "")

/-- Request-side phase of `parseAnthropicExchange`: parse the body, require
a `messages` array, prepend a truthy `system` value, collect messages,
reject when none survive; also read `model` and `stream`. -/
def anthropicRequestPhase (body : String) :
    Except Unit (Option (List ParsedMessage × Option Json × Bool)) := do
  match jsonParse body with
  | none => .ok none
  | some request => do
    match ← jsGet request "messages" with
    | some (.arr msgs) => do
      let systemV ← jsGet request "system"
      let systemMsgs : List ParsedMessage :=
        if jsTruthy systemV then [⟨.system, systemV.getD .null⟩] else []
      let loopMsgs ← anthropicCollectMessages msgs
      let userMessages := systemMsgs ++ loopMsgs
      if userMessages.isEmpty then .ok none
      else do
        let modelReqV ← jsGet request "model"
        let streamV ← jsGet request "stream"
        .ok (some (userMessages, jsCoalesce modelReqV none, jsTruthy streamV))
    | _ => .ok none

/-- `parseAnthropicExchange`. -/
def parseAnthropicExchange (exchange : InterceptedExchange) :
    Except Unit (Option ParsedChatExchange) := do
  match ← anthropicRequestPhase exchange.request.body with
  | none => .ok none
  | some (userMessages, model0, streamReq) => do
    let mc ←
      if exchange.response.isStreaming || streamReq then
        anthropicStreamingPhase exchange.response.body model0
      else .ok (anthropicNonStreamingPhase exchange.response.body model0)
    let assistantMessage : Option ParsedMessage :=
      if mc.2 == "" then none else some ⟨.assistant, .str mc.2⟩
    .ok (some ⟨.anthropic, mc.1, userMessages, assistantMessage⟩)

/-! ## Parser registry and conversion (parsers/index.ts) -/

def PARSERS (p : AIProvider) :
    InterceptedExchange → Except Unit (Option ParsedChatExchange) :=
  match p with
  | .openai => parseOpenAIExchange
  | .google => parseGoogleExchange
  | .anthropic => parseAnthropicExchange

def PROVIDER_TO_SOURCE (p : AIProvider) : String :=
  match p with
  | .openai => "copilot"
  | .google => "antigravity"
  | .anthropic => "claude-code"

/-- The `truncate` helper: flatten newlines, trim, cap at `maxLength`
replacing the tail with `...`. -/
def truncateClean (text : String) (maxLength : Nat) : String :=
  let clean := trimChars (text.data.map (fun c => if c == '\n' then ' ' else c))
  if clean.length ≤ maxLength then String.mk clean
  else String.mk (clean.take (maxLength - 3)) ++ "..."

/-- `truncate(text, maxLength)` on a runtime value: `.replace` on a
non-string receiver throws a `TypeError`. -/
def jsTruncate (v : Json) (maxLength : Nat) : Except Unit String :=
  match v with
  | .str s => .ok (truncateClean s maxLength)
  | _ => .error ()

def computeSourceHash (exchange : InterceptedExchange) : String :=
  String.mk ((sha256HexChars (exchange.request.body ++ exchange.response.body)).take 32)

structure Message where
  id : String
  conversationId : String
  role : Role
  content : Json
  sourceModel : Option Json
  timestamp : String
  metadata : List (String × Json)

instance : Inhabited Message := ⟨⟨"", "", .user, .null, none, "", []⟩⟩

structure Conversation where
  id : String
  title : String
  sourceIde : String
  sourceHash : String
  workspacePath : Option String
  createdAt : String
  updatedAt : String
  messages : List Message

instance : Inhabited Conversation := ⟨⟨"", "", "", "", none, "", "", []⟩⟩

/-- `parseExchangeToConversation`; `now` stands for the
`new Date().toISOString()` value taken at conversion time. -/
def parseExchangeToConversation (now : String) (exchange : InterceptedExchange) :
    Except Unit (Option Conversation) := do
  let provider := exchange.request.endpoint.provider
  match ← PARSERS provider exchange with
  | none => .ok none
  | some parsed =>
    match (parsed.userMessages.filter (fun m => m.role == Role.user)).getLast? with
    | none => .ok none
    | some lastUserMsg => do
      let sourceIde := PROVIDER_TO_SOURCE provider
      let conversationId :=
        generateConversationId sourceIde lastUserMsg.content.jsStr exchange.request.timestamp
      let title ← jsTruncate lastUserMsg.content 100
      let userMessage : Message :=
        { id := conversationId ++ "-msg-0"
          conversationId := conversationId
          role := .user
          content := lastUserMsg.content
          sourceModel := none
          timestamp := toISOString exchange.request.timestamp
          metadata := [("capturedVia", .str "interceptor"),
                       ("endpoint", .str exchange.request.endpoint.label)] }
      let messages : List Message :=
        match parsed.assistantMessage with
        | some am =>
          [userMessage,
           { id := conversationId ++ "-msg-1"
             conversationId := conversationId
             role := .assistant
             content := am.content
             sourceModel := parsed.model
             timestamp := toISOString exchange.response.timestamp
             metadata := [("capturedVia", .str "interceptor"),
                          ("endpoint", .str exchange.request.endpoint.label),
                          ("streaming", .bool exchange.response.isStreaming)] }]
        | none => [userMessage]
      .ok (some
        { id := conversationId
          title := title
          sourceIde := sourceIde
          sourceHash := computeSourceHash exchange
          workspacePath := none
          createdAt := now
          updatedAt := now
          messages := messages })

/-! ## Orchestrator filtering (NetworkInterceptor.handleExchange) -/

/-- `handleExchange` forwards only 2xx exchanges to the `onExchange` event;
the body is wrapped in `try/catch`, so it is a total function returning the
forwarded exchange, if any. -/
def handleExchange (exchange : InterceptedExchange) : Option InterceptedExchange :=
  if 200 ≤ exchange.response.statusCode ∧ exchange.response.statusCode < 300 then
    some exchange
  else none

/-! ## Lenient UTF-8 decoding (`Buffer.toString("utf-8")`, `TextDecoder`) -/

/-- Invalid sequences decode to U+FFFD; overlong encodings, surrogates and
out-of-range code points are rejected. -/
def decodeUtf8Go : Nat → List Nat → List Char
  | 0, _ => []
  | _ + 1, [] => []
  | fuel + 1, b :: rest =>
    if b < 0x80 then Char.ofNat b :: decodeUtf8Go fuel rest
    else if b < 0xC0 then replacementChar :: decodeUtf8Go fuel rest
    else if b < 0xE0 then
      match rest with
      | b1 :: rest1 =>
        if 0x80 ≤ b1 ∧ b1 < 0xC0 then
          let n := (b - 0xC0) * 64 + (b1 - 0x80)
          (if n < 0x80 then replacementChar else Char.ofNat n) :: decodeUtf8Go fuel rest1
        else replacementChar :: decodeUtf8Go fuel rest
      | [] => [replacementChar]
    else if b < 0xF0 then
      match rest with
      | b1 :: b2 :: rest2 =>
        if (0x80 ≤ b1 ∧ b1 < 0xC0) ∧ (0x80 ≤ b2 ∧ b2 < 0xC0) then
          let n := (b - 0xE0) * 4096 + (b1 - 0x80) * 64 + (b2 - 0x80)
          (if n < 0x800 ∨ (0xD800 ≤ n ∧ n ≤ 0xDFFF) then replacementChar else Char.ofNat n) ::
            decodeUtf8Go fuel rest2
        else replacementChar :: decodeUtf8Go fuel rest
      | _ => [replacementChar]
    else if b < 0xF8 then
      match rest with
      | b1 :: b2 :: b3 :: rest3 =>
        if (0x80 ≤ b1 ∧ b1 < 0xC0) ∧ (0x80 ≤ b2 ∧ b2 < 0xC0) ∧ (0x80 ≤ b3 ∧ b3 < 0xC0) then
          let n := (b - 0xF0) * 262144 + (b1 - 0x80) * 4096 + (b2 - 0x80) * 64 + (b3 - 0x80)
          (if n < 0x10000 ∨ 0x10FFFF < n then replacementChar else Char.ofNat n) ::
            decodeUtf8Go fuel rest3
        else replacementChar :: decodeUtf8Go fuel rest
      | _ => [replacementChar]
    else replacementChar :: decodeUtf8Go fuel rest

def decodeUtf8 (bs : List Nat) : String := String.mk (decodeUtf8Go bs.length bs)

/-- `BodyCollector.toString()`: UTF-8 materialization of the collected
bytes. -/
def BodyCollector.toUtf8 (c : BodyCollector) : String := decodeUtf8 c.collected

/-! ## Transport patcher models (https-patcher.ts, fetch-patcher.ts) -/

structure UrlParts where
  hostname : String
  pathname : String
  search : String

/-- One argument of an `http.request(...)` call, as `extractRequestInfo`
distinguishes them. -/
inductive JsArg where
  | url (u : UrlParts)
  | str (s : String)
  | options (hostname : Option String) (host : Option String)
            (path : Option String) (method : Option String)
  | buffer
  | callback

structure RequestInfo where
  hostname : String
  path : String
  method : String

def strUpper (s : String) : String := String.mk (s.data.map Char.toUpper)

/-- `extractRequestInfo(args)`, parameterized by the `URL` constructor
(`parseUrl s = none` models `new URL(s)` throwing, which the code catches
and treats as "not a full URL"). -/
def extractRequestInfo (parseUrl : String → Option UrlParts) :
    List JsArg → Option RequestInfo
  | [] => none
  | arg :: rest =>
    match arg with
    | .url u => some ⟨u.hostname, u.pathname ++ u.search, "GET"⟩
    | .str s =>
      match parseUrl s with
      | some u => some ⟨u.hostname, u.pathname ++ u.search, "GET"⟩
      | none => extractRequestInfo parseUrl rest
    | .options hostname host path method =>
      let hn := match hostname with | some h => some h | none => host
      match hn with
      | some h =>
        if h == "" then extractRequestInfo parseUrl rest
        else some ⟨h, path.getD "/", strUpper (method.getD "GET")⟩
      | none => extractRequestInfo parseUrl rest
    | .buffer => extractRequestInfo parseUrl rest
    | .callback => extractRequestInfo parseUrl rest

/-- Outcome model of the function `wrapRequest` builds around
`http.request` / `https.request`.  `original` is the outcome of
`original.apply(this, args)` (run before the `try`, so its exception
propagates exactly as without the patch); `instrument` is the outcome of the
instrumentation attempt, swallowed by the `try/catch`. -/
def wrappedRequest {Req : Type} (parseUrl : String → Option UrlParts)
    (original : Except Unit Req) (args : List JsArg)
    (instrument : Except Unit Unit) : Except Unit Req := do
  let req ← original
  let _ : Unit :=
    match (match extractRequestInfo parseUrl args with
      | none => .ok ()
      | some info =>
        match matchEndpoint info.hostname info.path with
        | none => .ok ()
        | some _ => instrument : Except Unit Unit) with
    | .ok _ => ()
    | .error _ => ()
  pure req

/-- The wrapped `req.write` / `req.end` installed by `instrumentRequest`:
the capture attempt sits in its own `try/catch` before delegating. -/
def wrappedWrite {A : Type} (origResult : Except Unit A)
    (capture : Except Unit Unit) : Except Unit A :=
  let _ : Unit :=
    match capture with
    | .ok _ => ()
    | .error _ => ()
  origResult

inductive FetchBody where
  | str (s : String)
  | arrayBuffer (bytes : List Nat)
  | view (bytes : List Nat)
  | stream

structure RequestInitModel where
  method : Option String
  body : Option FetchBody

/-- A `fetch` input; for a `Request` object we keep its url, method and the
outcome of `clone().text()`. -/
inductive FetchInput where
  | str (s : String)
  | url (u : UrlParts)
  | request (url : String) (method : String) (cloneText : Except Unit String)
  | unknown

structure FetchResponseModel where
  status : Nat
  contentTypeHeader : Option String
  cloneText : Except Unit String

def strSliceTo (s : String) (n : Nat) : String := String.mk (s.data.take n)

def fetchMethod (input : FetchInput) (init? : Option RequestInitModel) : String :=
  match init?.bind (fun i => i.method) with
  | some m => m
  | none =>
    match input with
    | .request _ m _ => m
    | _ => "GET"

/-- The request-body capture of the patched fetch (best-effort, inside its
own `try/catch`): string and binary bodies are sliced to `maxBodyBytes`,
stream bodies are skipped, `Request` bodies are read from a clone. -/
def fetchCaptureRequestBody (maxBodyBytes : Nat) (input : FetchInput)
    (init? : Option RequestInitModel) : String :=
  match init?.bind (fun i => i.body) with
  | some (.str s) => strSliceTo s maxBodyBytes
  | some (.arrayBuffer bytes) => decodeUtf8 (bytes.take maxBodyBytes)
  | some (.view bytes) => decodeUtf8 (bytes.take maxBodyBytes)
  | some .stream => ""
  | none =>
    match input with
    | .request _ _ cloneText =>
      match cloneText with
      | .ok body => strSliceTo body maxBodyBytes
      | .error _ => ""
    | _ => ""

/-- The patched `globalThis.fetch`.  `origFetch` is the outcome of awaiting
the saved original (its exception propagates unchanged); `onExchange` is the
outcome of the exchange callback, swallowed with the rest of the capture
`try/catch`. -/
def patchedFetch (parseUrl : String → Option UrlParts) (maxBodyBytes : Nat)
    (input : FetchInput) (init? : Option RequestInitModel)
    (origFetch : Except Unit FetchResponseModel)
    (onExchange : InterceptedExchange → Except Unit Unit)
    (requestTimestamp responseTimestamp : Nat) :
    Except Unit FetchResponseModel :=
  let parsedUrl? : Option UrlParts :=
    match input with
    | .str s => parseUrl s
    | .url u => some u
    | .request url _ _ => parseUrl url
    | .unknown => none
  match parsedUrl? with
  | none => origFetch
  | some parsedUrl =>
    let method := fetchMethod input init?
    match matchEndpoint parsedUrl.hostname parsedUrl.pathname with
    | none => origFetch
    | some endpoint =>
      let requestBody := fetchCaptureRequestBody maxBodyBytes input init?
      match origFetch with
      | .error e => .error e
      | .ok response =>
        let _ : Unit :=
          let isStreaming := isSSEContentType response.contentTypeHeader
          let responseBody :=
            match response.cloneText with
            | .ok t => strSliceTo t maxBodyBytes
            | .error _ => ""
          let exchange : InterceptedExchange :=
            ⟨⟨strUpper method, parsedUrl.hostname, parsedUrl.pathname ++ parsedUrl.search,
              endpoint, requestBody, requestTimestamp⟩,
             ⟨response.status, responseBody, isStreaming, responseTimestamp⟩⟩
          match onExchange exchange with
          | .ok _ => ()
          | .error _ => ()
        .ok response

/-! ## Heuristic protobuf string scanner
(AntigravityExtractor.extractProtobufStrings) -/

/-- `value |= (byte & 0x7f) << shift` with JavaScript 32-bit semantics,
computed on the 32-bit pattern. -/
def varintAccum (value : Nat) (byte : Nat) (shift : Nat) : Nat :=
  Nat.lor value (w32 ((byte &&& 0x7f) <<< (shift % 32)))

/-- Signed 32-bit reading of a bit pattern (the JS number the scanner
compares and adds). -/
def int32OfPattern (p : Nat) : Int :=
  if p < 2147483648 then Int.ofNat p else Int.ofNat p - 4294967296

structure VarintResult where
  value : Nat
  bytesRead : Nat

/-- The `readVarint` loop: reads until a byte without the continuation bit,
the end of the buffer, or the `bytesRead > 5` guard (checked after the
increment).  `gas` only bounds the recursion; it is never exhausted when
started at 6. -/
def readVarintGo (buffer : List Nat) :
    Nat → Nat → Nat → Nat → Nat → VarintResult
  | _, _, value, bytesRead, 0 => ⟨value, bytesRead⟩
  | offset, shift, value, bytesRead, gas + 1 =>
    if offset < buffer.length then
      let byte := buffer.getD offset 0
      let value := varintAccum value byte shift
      let bytesRead := bytesRead + 1
      if byte &&& 0x80 == 0 then ⟨value, bytesRead⟩
      else if bytesRead > 5 then ⟨value, bytesRead⟩
      else readVarintGo buffer (offset + 1) (shift + 7) value bytesRead gas
    else ⟨value, bytesRead⟩

def readVarint (buffer : List Nat) (offset : Nat) : VarintResult :=
  readVarintGo buffer offset 0 0 0 6

/-- One iteration of the scan loop of `extractProtobufStrings`: the next
offset together with the harvested string, if any. -/
def scanStep (buffer : List Nat) (offset : Nat) : Nat × Option String :=
  let tag := buffer.getD offset 0
  let wireType := tag &&& 0x07
  if wireType == 2 then
    let offset1 := offset + 1
    let vr := readVarint buffer offset1
    let offset2 := offset1 + vr.bytesRead
    let lengthInt := int32OfPattern vr.value
    if 0 < lengthInt ∧ lengthInt < 100000 ∧ (offset2 : Int) + lengthInt ≤ buffer.length then
      let length := lengthInt.toNat
      let text := decodeUtf8 ((buffer.drop offset2).take length)
      let printable := text.data.filter (fun ch =>
        (0x20 ≤ ch.toNat ∧ ch.toNat ≤ 0x7E) ∨ ch = '\n' ∨ ch = '\r' ∨ ch = '\t')
      let keep := 5 * printable.length > 4 * text.data.length ∧ text.data.length > 5
      (offset2 + length, if keep then some (String.mk (trimChars text.data)) else none)
    else (offset2 + 1, none)
  else (offset + 1, none)

/-- The scan offset strictly increases on every iteration, whatever the byte
contents. -/
theorem scanStep_advance (buffer : List Nat) (offset : Nat) :
    offset < (scanStep buffer offset).1 := by
  unfold scanStep
  dsimp only
  split
  · split
    · have : 0 ≤ (int32OfPattern (readVarint buffer (offset + 1)).value).toNat := Nat.zero_le _
      omega
    · omega
  · omega

/-- The scan loop, total by well-founded recursion on the remaining buffer
thanks to `scanStep_advance`. -/
def extractGo (buffer : List Nat) (offset : Nat) (acc : List String) : List String :=
  if _h : offset < buffer.length then
    let step := scanStep buffer offset
    extractGo buffer step.1
      (match step.2 with
        | some s => acc ++ [s]
        | none => acc)
  else acc
termination_by buffer.length - offset
decreasing_by
  have := scanStep_advance buffer offset
  omega

def extractProtobufStrings (buffer : List Nat) : List String :=
  extractGo buffer 0 []

/-! ## File extractors (copilot-extractor.ts: BaseExtractor, CopilotExtractor,
AntigravityExtractor)

The filesystem, sqlite and `Date` plumbing is abstracted: file contents,
paths/basenames and the prompt/session values arrive as parameters, and the
`new Date(...).toISOString()` renderings are a function parameter (like
`parseUrl` of the patched fetch), so every property below holds for every
timestamp semantics.  A `Conversation.title` that the runtime receives as a
raw non-string value (a type lie of the TS annotations) is rendered here by
its JS string coercion, the nearest `String`-typed image; no theorem
mentions extractor titles. -/

/-- Spec-side reading of one SSE line: keep `data:` lines, strip the marker
and whitespace, skip the `[DONE]` sentinel, JSON-decode, drop failures. -/
def sseDecodeLine (line : List Char) : Option Json :=
  let trimmed := trimChars line
  if startsWithChars "data:".data trimmed then
    let payload := trimChars (trimmed.drop 5)
    if payload == "[DONE]".data then none
    else jsonParseChars payload
  else none

/-- Spec-side SSE algorithm: the decodable payloads of the `data:` lines, in
order. -/
def sseEventsSpec (raw : String) : List Json :=
  (splitOnChar '\n' raw.data).filterMap sseDecodeLine

def sumLen (bufs : List (List Nat)) : Nat := (bufs.map List.length).sum

instance : Inhabited ParsedMessage := ⟨⟨.user, .null⟩⟩

instance : Inhabited ParsedChatExchange := ⟨⟨.openai, none, [], none⟩⟩

def openaiEndpoint : AIEndpoint :=
  ⟨.openai, "api.openai.com", "/v1/chat/completions", "OpenAI Chat"⟩

/-- A captured OpenAI-endpoint exchange with the given bodies. -/
def mkOpenAIExchange (reqBody respBody : String) (streaming : Bool) (status : Nat) :
    InterceptedExchange :=
  ⟨⟨"POST", "api.openai.com", "/v1/chat/completions", openaiEndpoint, reqBody, 60000⟩,
   ⟨status, respBody, streaming, 61000⟩⟩

/-- Valid chat request, valid non-streaming completion response. -/
def exBasic : InterceptedExchange :=
  mkOpenAIExchange "\x7b\"messages\":[\x7b\"role\":\"user\",\"content\":\"hello world\"\x7d]\x7d"
    "\x7b\"choices\":[\x7b\"message\":\x7b\"role\":\"assistant\",\"content\":\"hi\"\x7d\x7d]\x7d"
    false 200

/-- Valid request whose response body is not parseable. -/
def exRequestOnly : InterceptedExchange :=
  mkOpenAIExchange "\x7b\"messages\":[\x7b\"role\":\"user\",\"content\":\"hello world\"\x7d]\x7d"
    "not json" false 200

/-- Same request as `exRequestOnly` with a different (valid) response. -/
def exOtherResponse : InterceptedExchange :=
  mkOpenAIExchange "\x7b\"messages\":[\x7b\"role\":\"user\",\"content\":\"hello world\"\x7d]\x7d"
    "\x7b\"choices\":[\x7b\"message\":\x7b\"content\":\"sure\"\x7d\x7d]\x7d" false 200

/-- Request whose only message has a truthy non-string role (the number 1). -/
def exNumericRole : InterceptedExchange :=
  mkOpenAIExchange "\x7b\"messages\":[\x7b\"role\":1,\"content\":\"x\"\x7d]\x7d" "" false 200

/-- Request whose user message content is the number 5 (truthy non-string). -/
def exNumericContent : InterceptedExchange :=
  mkOpenAIExchange "\x7b\"messages\":[\x7b\"role\":\"user\",\"content\":5\x7d]\x7d" "" false 200

/-- Request body that is not valid JSON. -/
def exInvalidJson : InterceptedExchange := mkOpenAIExchange "oops" "" false 200

def exStatus404 : InterceptedExchange := mkOpenAIExchange "x" "y" false 404

/-- The parsed exchange of `exRequestOnly`. -/
def parsedRequestOnly : ParsedChatExchange :=
  match parseOpenAIExchange exRequestOnly with
  | .ok (some p) => p
  | _ => default

/-- The parsed exchange of `exOtherResponse`. -/
def parsedOtherResponse : ParsedChatExchange :=
  match parseOpenAIExchange exOtherResponse with
  | .ok (some p) => p
  | _ => default

/-- The parsed exchange of `exBasic`. -/
def parsedBasic : ParsedChatExchange :=
  match parseOpenAIExchange exBasic with
  | .ok (some p) => p
  | _ => default

/-- The last user message of `parsedBasic`. -/
def lastUserBasic : ParsedMessage :=
  match (parsedBasic.userMessages.filter (fun m => m.role == Role.user)).getLast? with
  | some u => u
  | none => default

@[simp] theorem except_bind_ok {ε α β : Type} (a : α) (f : α → Except ε β) :
    (Except.ok a >>= f) = f a := rfl

@[simp] theorem except_bind_error {ε α β : Type} (e : ε) (f : α → Except ε β) :
    ((Except.error e : Except ε α) >>= f) = Except.error e := rfl

@[simp] theorem except_pure_eq {ε α : Type} (a : α) :
    (pure a : Except ε α) = Except.ok a := rfl

theorem push_invariant_step (st : BodyCollector) (pre buf : List Nat)
    (h2 : st.totalBytes = min pre.length st.maxBytes)
    (h3 : st.truncated = decide (st.maxBytes < pre.length))
    (h4 : st.chunks.flatMap id = pre.take st.maxBytes) :
    ((st.push buf).2).maxBytes = st.maxBytes
    ∧ ((st.push buf).2).totalBytes = min (pre ++ buf).length st.maxBytes
    ∧ ((st.push buf).2).truncated = decide (st.maxBytes < (pre ++ buf).length)
    ∧ ((st.push buf).2).chunks.flatMap id = (pre ++ buf).take st.maxBytes := by
  obtain ⟨m, chunks, tot, tr⟩ := st
  dsimp only at h2 h3 h4 ⊢
  by_cases htr : m < pre.length
  · have htrue : tr = true := by rw [h3]; exact decide_eq_true htr
    subst htrue
    have hp : BodyCollector.push ⟨m, chunks, tot, true⟩ buf = (false, ⟨m, chunks, tot, true⟩) := rfl
    rw [hp]
    refine ⟨rfl, ?_, ?_, ?_⟩
    · rw [h2]; simp only [List.length_append]; omega
    · rw [eq_comm, decide_eq_true_eq]; simp only [List.length_append]; omega
    · rw [h4, List.take_append_eq_append_take, Nat.sub_eq_zero_of_le (Nat.le_of_lt htr)]
      simp
  · have hple : pre.length ≤ m := Nat.le_of_not_lt htr
    have hfalse : tr = false := by rw [h3]; exact decide_eq_false htr
    have htot : tot = pre.length := by rw [h2]; omega
    subst hfalse
    subst htot
    by_cases hov : m < pre.length + buf.length
    · by_cases hrem : pre.length < m
      · have hpos : 0 < m - pre.length := by omega
        have hp : BodyCollector.push ⟨m, chunks, pre.length, false⟩ buf
            = (false, ⟨m, chunks ++ [buf.take (m - pre.length)], m, true⟩) := by
          unfold BodyCollector.push
          dsimp only
          rw [if_neg Bool.false_ne_true, if_pos hov, if_pos hpos]
        rw [hp]
        refine ⟨rfl, ?_, ?_, ?_⟩
        · dsimp only; simp only [List.length_append]; omega
        · dsimp only; rw [eq_comm, decide_eq_true_eq]; simp only [List.length_append]; omega
        · dsimp only
          rw [List.take_append_eq_append_take]
          simp [h4]
      · have hnpos : ¬(0 < m - pre.length) := by omega
        have hp : BodyCollector.push ⟨m, chunks, pre.length, false⟩ buf
            = (false, ⟨m, chunks, pre.length, true⟩) := by
          unfold BodyCollector.push
          dsimp only
          rw [if_neg Bool.false_ne_true, if_pos hov, if_neg hnpos]
        rw [hp]
        refine ⟨rfl, ?_, ?_, ?_⟩
        · dsimp only; simp only [List.length_append]; omega
        · dsimp only; rw [eq_comm, decide_eq_true_eq]; simp only [List.length_append]; omega
        · dsimp only
          have hszero : m - pre.length = 0 := by omega
          rw [h4, List.take_append_eq_append_take, hszero]
          simp
    · have hp : BodyCollector.push ⟨m, chunks, pre.length, false⟩ buf
          = (true, ⟨m, chunks ++ [buf], pre.length + buf.length, false⟩) := by
        unfold BodyCollector.push
        dsimp only
        rw [if_neg Bool.false_ne_true, if_neg hov]
      rw [hp]
      refine ⟨rfl, ?_, ?_, ?_⟩
      · dsimp only; simp only [List.length_append]; omega
      · dsimp only; rw [eq_comm, decide_eq_false_iff_not]; simp only [List.length_append]; omega
      · dsimp only
        rw [List.take_of_length_le (by simp only [List.length_append]; omega)]
        simp [h4, List.take_of_length_le hple]

theorem pushAll_characterization (m : Nat) :
    ∀ (bufs : List (List Nat)) (st : BodyCollector) (pre : List Nat),
      st.maxBytes = m → st.totalBytes = min pre.length m →
      st.truncated = decide (m < pre.length) →
      st.chunks.flatMap id = pre.take m →
      (st.pushAll bufs).maxBytes = m
      ∧ (st.pushAll bufs).totalBytes = min (pre.length + sumLen bufs) m
      ∧ (st.pushAll bufs).truncated = decide (m < pre.length + sumLen bufs)
      ∧ (st.pushAll bufs).chunks.flatMap id = (pre ++ bufs.flatMap id).take m := by
  intro bufs
  induction bufs with
  | nil =>
    intro st pre h1 h2 h3 h4
    refine ⟨h1, ?_, ?_, ?_⟩ <;> simp [BodyCollector.pushAll, sumLen, h2, h3, h4]
  | cons buf rest ih =>
    intro st pre h1 h2 h3 h4
    obtain ⟨s1, s2, s3, s4⟩ := push_invariant_step st pre buf
      (by rw [h1]; exact h2) (by rw [h1]; exact h3) (by rw [h1]; exact h4)
    rw [h1] at s1 s2 s3 s4
    have hstep : st.pushAll (buf :: rest) = ((st.push buf).2).pushAll rest := rfl
    obtain ⟨a, b, c, d⟩ := ih (st.push buf).2 (pre ++ buf) s1 s2 s3 s4
    have harith : (pre ++ buf).length + sumLen rest = pre.length + sumLen (buf :: rest) := by
      simp only [sumLen, List.map_cons, List.sum_cons, List.length_append]
      omega
    refine ⟨hstep ▸ a, ?_, ?_, ?_⟩
    · rw [hstep, b, harith]
    · rw [hstep, c, harith]
    · rw [hstep, d]
      simp [List.append_assoc]

theorem flatMap_id_length (bufs : List (List Nat)) :
    (bufs.flatMap id).length = sumLen bufs := by
  induction bufs with
  | nil => rfl
  | cons buf rest ih =>
    simp only [List.flatMap_cons, List.length_append, ih, sumLen, List.map_cons, List.sum_cons,
      id_eq]

theorem bytesBE_length (n k : Nat) : (bytesBE n k).length = k := by
  induction k generalizing n with
  | zero => rfl
  | succ k ih => simp [bytesBE, ih]

theorem sha256Bytes_length (msg : List Nat) : (sha256Bytes msg).length = 32 := by
  simp [sha256Bytes, bytesBE_length]

theorem bytesToHexChars_length (bs : List Nat) :
    (bytesToHexChars bs).length = 2 * bs.length := by
  induction bs with
  | nil => rfl
  | cons b bs ih =>
    simp only [bytesToHexChars, List.flatMap_cons, List.length_append] at *
    simp [byteToHexChars, ih]
    omega

theorem sha256HexChars_length (s : String) : (sha256HexChars s).length = 64 := by
  simp [sha256HexChars, bytesToHexChars_length, sha256Bytes_length]

theorem isHexLower_hexDigitChar (n : Nat) : isHexLower (hexDigitChar n) = true := by
  unfold hexDigitChar
  rcases Nat.lt_or_ge n 16 with h | h
  · interval_cases n <;> decide
  · rw [List.getD_eq_default]
    · decide
    · simpa [hexAlphabet] using h

theorem sha256HexChars_hex (s : String) :
    ∀ c ∈ sha256HexChars s, isHexLower c = true := by
  intro c hc
  simp only [sha256HexChars, bytesToHexChars, List.mem_flatMap] at hc
  obtain ⟨b, _, hc⟩ := hc
  simp only [byteToHexChars, List.mem_cons, List.mem_singleton] at hc
  rcases hc with h | h | h
  · subst h; exact isHexLower_hexDigitChar _
  · subst h; exact isHexLower_hexDigitChar _
  · cases h

theorem hexRun_append (g rest : List Char) (hhex : ∀ c ∈ g, isHexLower c = true) :
    hexRun g.length (g ++ rest) = some rest := by
  induction g with
  | nil => rfl
  | cons c g ih =>
    simp only [List.length_cons, List.cons_append, hexRun]
    rw [hhex c (by simp)]
    exact ih (fun d hd => hhex d (by simp [hd]))

theorem uuidLayout_build (g1 g2 g3 g4 g5 : List Char)
    (l1 : g1.length = 8) (l2 : g2.length = 4) (l3 : g3.length = 4)
    (l4 : g4.length = 4) (l5 : g5.length = 12)
    (x1 : ∀ c ∈ g1, isHexLower c = true) (x2 : ∀ c ∈ g2, isHexLower c = true)
    (x3 : ∀ c ∈ g3, isHexLower c = true) (x4 : ∀ c ∈ g4, isHexLower c = true)
    (x5 : ∀ c ∈ g5, isHexLower c = true) :
    uuidLayout (String.mk (g1 ++ '-' :: (g2 ++ '-' :: (g3 ++ '-' :: (g4 ++ '-' :: g5))))) = true := by
  have e1 := hexRun_append g1 ('-' :: (g2 ++ '-' :: (g3 ++ '-' :: (g4 ++ '-' :: g5)))) x1
  have e2 := hexRun_append g2 ('-' :: (g3 ++ '-' :: (g4 ++ '-' :: g5))) x2
  have e3 := hexRun_append g3 ('-' :: (g4 ++ '-' :: g5)) x3
  have e4 := hexRun_append g4 ('-' :: g5) x4
  have e5 := hexRun_append g5 [] x5
  rw [l1] at e1
  rw [l2] at e2
  rw [l3] at e3
  rw [l4] at e4
  rw [l5] at e5
  unfold uuidLayout
  rw [show (String.mk (g1 ++ '-' :: (g2 ++ '-' :: (g3 ++ '-' :: (g4 ++ '-' :: g5))))).data
      = g1 ++ '-' :: (g2 ++ '-' :: (g3 ++ '-' :: (g4 ++ '-' :: g5))) from rfl]
  rw [e1]
  simp only
  rw [e2]
  simp only
  rw [e3]
  simp only
  rw [e4]
  simp only
  rw [show g5 ++ ([] : List Char) = g5 from by simp] at e5
  rw [e5]
  rfl

theorem readVarintGo_bytesRead_le (buffer : List Nat) :
    ∀ (gas offset shift value bytesRead : Nat),
      (readVarintGo buffer offset shift value bytesRead gas).bytesRead ≤ bytesRead + gas := by
  intro gas
  induction gas with
  | zero => intro offset shift value bytesRead; simp [readVarintGo]
  | succ gas ih =>
    intro offset shift value bytesRead
    unfold readVarintGo
    split
    · dsimp only
      split
      · simp
      · split
        · simp
        · exact le_trans (ih (offset + 1) (shift + 7) _ (bytesRead + 1)) (by omega)
    · simp

theorem readVarint_bytesRead_le (buffer : List Nat) (offset : Nat) :
    (readVarint buffer offset).bytesRead ≤ 6 := by
  simpa using readVarintGo_bytesRead_le buffer 6 offset 0 0 0

theorem parseSSE_go (lines : List (List Char)) (acc : List Json) :
    lines.foldl
      (fun results line =>
        let trimmed := trimChars line
        if startsWithChars "data:".data trimmed then
          let payload := trimChars (trimmed.drop 5)
          if payload == "[DONE]".data then results
          else
            match jsonParseChars payload with
            | some j => results ++ [j]
            | none => results
        else results) acc
    = acc ++ lines.filterMap sseDecodeLine := by
  induction lines generalizing acc with
  | nil => simp
  | cons line rest ih =>
    rw [List.foldl_cons]
    dsimp only
    cases hsw : startsWithChars "data:".data (trimChars line) with
    | false =>
      have hd : sseDecodeLine line = none := by simp [sseDecodeLine, hsw]
      rw [if_neg (by simp), List.filterMap_cons_none hd]
      exact ih acc
    | true =>
      rw [if_pos rfl]
      cases hdn : trimChars ((trimChars line).drop 5) == "[DONE]".data with
      | true =>
        have hd : sseDecodeLine line = none := by simp [sseDecodeLine, hsw, hdn]
        rw [if_pos rfl, List.filterMap_cons_none hd]
        exact ih acc
      | false =>
        rw [if_neg (by simp)]
        cases hj : jsonParseChars (trimChars ((trimChars line).drop 5)) with
        | none =>
          have hd : sseDecodeLine line = none := by simp [sseDecodeLine, hsw, hdn, hj]
          dsimp only
          rw [List.filterMap_cons_none hd]
          exact ih acc
        | some j =>
          have hd : sseDecodeLine line = some j := by simp [sseDecodeLine, hsw, hdn, hj]
          dsimp only
          rw [List.filterMap_cons_some hd]
          exact (ih (acc ++ [j])).trans (by simp)

theorem except_bind_ok_elim {ε α β : Type} (x : Except ε α) (f : α → Except ε β) (b : β)
    (h : (x >>= f) = .ok b) : ∃ a, x = .ok a ∧ f a = .ok b := by
  cases x with
  | error e => exact absurd h (by simp)
  | ok a => exact ⟨a, rfl, h⟩

theorem jsTruthy_getD (o : Option Json) (h : jsTruthy o = true) :
    (o.getD .null).truthy = true := by
  cases o with
  | none => simp [jsTruthy] at h
  | some v => exact h

theorem jsGet_eq_getD (v : Json) (key : String) (h : v ≠ .null) :
    jsGet v key = .ok (jsGetD v key) := by
  cases v <;> first | exact absurd rfl h | rfl

theorem openaiMessageStep_truthy (msg : Json) (roleV : Option Json) (pm : ParsedMessage)
    (h : openaiMessageStep msg roleV = .ok (some pm)) : pm.content.truthy = true := by
  unfold openaiMessageStep at h
  split at h
  · obtain ⟨contentV, hc, h⟩ := except_bind_ok_elim _ _ _ h
    split at h
    · rename_i htr
      obtain ⟨ro, hro, h⟩ := except_bind_ok_elim _ _ _ h
      cases ro with
      | none => simp at h
      | some r =>
        dsimp only at h
        simp only [except_pure_eq, Except.ok.injEq, Option.some.injEq] at h
        subst h
        exact jsTruthy_getD contentV htr
    · simp at h
  · simp at h

theorem openaiCollectMessages_truthy (msgs : List Json) (pms : List ParsedMessage)
    (h : openaiCollectMessages msgs = .ok pms) :
    ∀ pm ∈ pms, pm.content.truthy = true := by
  induction msgs generalizing pms with
  | nil =>
    simp only [openaiCollectMessages, Except.ok.injEq] at h
    subst h; intro pm hpm; simp at hpm
  | cons msg rest ih =>
    simp only [openaiCollectMessages] at h
    obtain ⟨roleV, _, h⟩ := except_bind_ok_elim _ _ _ h
    obtain ⟨step, hstep, h⟩ := except_bind_ok_elim _ _ _ h
    obtain ⟨others, hothers, h⟩ := except_bind_ok_elim _ _ _ h
    cases step with
    | none =>
      dsimp only at h
      injection h with h; subst h
      exact ih others hothers
    | some m =>
      dsimp only at h
      injection h with h; subst h
      intro pm hpm
      rcases List.mem_cons.mp hpm with rfl | hpm
      · exact openaiMessageStep_truthy msg roleV pm hstep
      · exact ih others hothers pm hpm

theorem googleCollectMessages_truthy (msgs : List Json) (pms : List ParsedMessage)
    (h : googleCollectMessages msgs = .ok pms) :
    ∀ pm ∈ pms, pm.content.truthy = true := by
  induction msgs generalizing pms with
  | nil =>
    simp only [googleCollectMessages, Except.ok.injEq] at h
    subst h; intro pm hpm; simp at hpm
  | cons content rest ih =>
    simp only [googleCollectMessages] at h
    obtain ⟨roleV, _, h⟩ := except_bind_ok_elim _ _ _ h
    obtain ⟨role?, _, h⟩ := except_bind_ok_elim _ _ _ h
    obtain ⟨partsV, _, h⟩ := except_bind_ok_elim _ _ _ h
    obtain ⟨text, _, h⟩ := except_bind_ok_elim _ _ _ h
    obtain ⟨others, hothers, h⟩ := except_bind_ok_elim _ _ _ h
    cases role? with
    | none =>
      dsimp only at h
      injection h with h; subst h
      exact ih others hothers
    | some r =>
      dsimp only at h
      split at h
      · injection h with h; subst h
        exact ih others hothers
      · rename_i hne
        injection h with h; subst h
        intro pm hpm
        rcases List.mem_cons.mp hpm with rfl | hpm
        · simpa [Json.truthy] using hne
        · exact ih others hothers pm hpm

theorem anthropicCollectMessages_truthy (msgs : List Json) (pms : List ParsedMessage)
    (h : anthropicCollectMessages msgs = .ok pms) :
    ∀ pm ∈ pms, pm.content.truthy = true := by
  induction msgs generalizing pms with
  | nil =>
    simp only [anthropicCollectMessages, Except.ok.injEq] at h
    subst h; intro pm hpm; simp at hpm
  | cons msg rest ih =>
    simp only [anthropicCollectMessages] at h
    obtain ⟨roleV, _, h⟩ := except_bind_ok_elim _ _ _ h
    obtain ⟨role?, _, h⟩ := except_bind_ok_elim _ _ _ h
    obtain ⟨content?, _, h⟩ := except_bind_ok_elim _ _ _ h
    obtain ⟨others, hothers, h⟩ := except_bind_ok_elim _ _ _ h
    cases role? with
    | none =>
      dsimp only at h
      injection h with h; subst h
      exact ih others hothers
    | some r =>
      cases content? with
      | none =>
        dsimp only at h
        injection h with h; subst h
        exact ih others hothers
      | some text =>
        dsimp only at h
        split at h
        · injection h with h; subst h
          exact ih others hothers
        · rename_i hne
          injection h with h; subst h
          intro pm hpm
          rcases List.mem_cons.mp hpm with rfl | hpm
          · simpa [Json.truthy] using hne
          · exact ih others hothers pm hpm

theorem openaiRequestPhase_ok (body : String) (ums : List ParsedMessage)
    (m : Option Json) (s : Bool)
    (h : openaiRequestPhase body = .ok (some (ums, m, s))) :
    ums ≠ [] ∧ ∀ pm ∈ ums, pm.content.truthy = true := by
  unfold openaiRequestPhase at h
  split at h
  · simp at h
  · obtain ⟨mv, _, h⟩ := except_bind_ok_elim _ _ _ h
    split at h
    · obtain ⟨pms, hc, h⟩ := except_bind_ok_elim _ _ _ h
      split at h
      · simp at h
      · rename_i hne
        obtain ⟨mv2, _, h⟩ := except_bind_ok_elim _ _ _ h
        obtain ⟨sv, _, h⟩ := except_bind_ok_elim _ _ _ h
        simp only [Except.ok.injEq, Option.some.injEq, Prod.mk.injEq] at h
        obtain ⟨h1, _, _⟩ := h
        subst h1
        exact ⟨by simpa [List.isEmpty_iff] using hne,
          openaiCollectMessages_truthy _ _ hc⟩
    · simp at h

theorem googleRequestPhase_ok (body : String) (ums : List ParsedMessage)
    (m : Option Json)
    (h : googleRequestPhase body = .ok (some (ums, m))) :
    ums ≠ [] ∧ ∀ pm ∈ ums, pm.content.truthy = true := by
  unfold googleRequestPhase at h
  split at h
  · simp at h
  · obtain ⟨cv, _, h⟩ := except_bind_ok_elim _ _ _ h
    split at h
    · obtain ⟨pms, hc, h⟩ := except_bind_ok_elim _ _ _ h
      split at h
      · simp at h
      · rename_i hne
        obtain ⟨mv2, _, h⟩ := except_bind_ok_elim _ _ _ h
        simp only [Except.ok.injEq, Option.some.injEq, Prod.mk.injEq] at h
        obtain ⟨h1, _⟩ := h
        subst h1
        exact ⟨by simpa [List.isEmpty_iff] using hne,
          googleCollectMessages_truthy _ _ hc⟩
    · simp at h

theorem anthropicRequestPhase_ok (body : String) (ums : List ParsedMessage)
    (m : Option Json) (s : Bool)
    (h : anthropicRequestPhase body = .ok (some (ums, m, s))) :
    ums ≠ [] ∧ ∀ pm ∈ ums, pm.content.truthy = true := by
  unfold anthropicRequestPhase at h
  split at h
  · simp at h
  · obtain ⟨mv, _, h⟩ := except_bind_ok_elim _ _ _ h
    split at h
    · obtain ⟨systemV, _, h⟩ := except_bind_ok_elim _ _ _ h
      dsimp only at h
      obtain ⟨loopMsgs, hc, h⟩ := except_bind_ok_elim _ _ _ h
      by_cases hsys : jsTruthy systemV = true
      · rw [if_pos hsys] at h
        simp only [List.singleton_append, List.isEmpty_cons, Bool.false_eq_true,
          if_false] at h
        obtain ⟨mv2, _, h⟩ := except_bind_ok_elim _ _ _ h
        obtain ⟨sv, _, h⟩ := except_bind_ok_elim _ _ _ h
        simp only [Except.ok.injEq, Option.some.injEq, Prod.mk.injEq] at h
        obtain ⟨h1, _, _⟩ := h
        subst h1
        refine ⟨by simp, ?_⟩
        intro pm hpm
        rcases List.mem_cons.mp hpm with rfl | hpm
        · exact jsTruthy_getD systemV hsys
        · exact anthropicCollectMessages_truthy _ _ hc pm hpm
      · rw [if_neg hsys] at h
        simp only [List.nil_append] at h
        split at h
        · simp at h
        · rename_i hne
          obtain ⟨mv2, _, h⟩ := except_bind_ok_elim _ _ _ h
          obtain ⟨sv, _, h⟩ := except_bind_ok_elim _ _ _ h
          simp only [Except.ok.injEq, Option.some.injEq, Prod.mk.injEq] at h
          obtain ⟨h1, _, _⟩ := h
          subst h1
          exact ⟨by simpa [List.isEmpty_iff] using hne,
            anthropicCollectMessages_truthy _ _ hc⟩
    · simp at h

theorem parseOpenAI_ok_elim (ex : InterceptedExchange) (p : ParsedChatExchange)
    (h : parseOpenAIExchange ex = .ok (some p)) :
    (∃ m s, openaiRequestPhase ex.request.body = .ok (some (p.userMessages, m, s)))
    ∧ (p.assistantMessage = none ∨ ∃ am, p.assistantMessage = some am
        ∧ am.role = .assistant ∧ am.content.truthy = true) := by
  unfold parseOpenAIExchange at h
  obtain ⟨o, hreq, h⟩ := except_bind_ok_elim _ _ _ h
  cases o with
  | none => dsimp only at h; simp at h
  | some trip =>
    obtain ⟨ums, m0, sR⟩ := trip
    dsimp only at h
    split at h
    all_goals
      obtain ⟨mc, hmc, h⟩ := except_bind_ok_elim _ _ _ h
      simp only [Except.ok.injEq, Option.some.injEq] at h
      subst h
      refine ⟨⟨m0, sR, hreq⟩, ?_⟩
      cases ht : mc.2.truthy with
      | false => left; simp
      | true =>
        right
        exact ⟨⟨.assistant, mc.2⟩, by simp, rfl, ht⟩

theorem parseGoogle_ok_elim (ex : InterceptedExchange) (p : ParsedChatExchange)
    (h : parseGoogleExchange ex = .ok (some p)) :
    (∃ m, googleRequestPhase ex.request.body = .ok (some (p.userMessages, m)))
    ∧ (p.assistantMessage = none ∨ ∃ am, p.assistantMessage = some am
        ∧ am.role = .assistant ∧ am.content.truthy = true) := by
  unfold parseGoogleExchange at h
  obtain ⟨o, hreq, h⟩ := except_bind_ok_elim _ _ _ h
  cases o with
  | none => dsimp only at h; simp at h
  | some pr =>
    obtain ⟨ums, mreq⟩ := pr
    dsimp only at h
    split at h
    all_goals
      obtain ⟨mc, hmc, h⟩ := except_bind_ok_elim _ _ _ h
      simp only [Except.ok.injEq, Option.some.injEq] at h
      subst h
      refine ⟨⟨mreq, hreq⟩, ?_⟩
      cases ht : mc.2 == "" with
      | true => left; simp
      | false =>
        right
        refine ⟨⟨.assistant, .str mc.2⟩, by simp, rfl, ?_⟩
        simp [Json.truthy, bne, ht]

theorem parseAnthropic_ok_elim (ex : InterceptedExchange) (p : ParsedChatExchange)
    (h : parseAnthropicExchange ex = .ok (some p)) :
    (∃ m s, anthropicRequestPhase ex.request.body = .ok (some (p.userMessages, m, s)))
    ∧ (p.assistantMessage = none ∨ ∃ am, p.assistantMessage = some am
        ∧ am.role = .assistant ∧ am.content.truthy = true) := by
  unfold parseAnthropicExchange at h
  obtain ⟨o, hreq, h⟩ := except_bind_ok_elim _ _ _ h
  cases o with
  | none => dsimp only at h; simp at h
  | some trip =>
    obtain ⟨ums, m0, sR⟩ := trip
    dsimp only at h
    split at h
    all_goals
      obtain ⟨mc, hmc, h⟩ := except_bind_ok_elim _ _ _ h
      simp only [Except.ok.injEq, Option.some.injEq] at h
      subst h
      refine ⟨⟨m0, sR, hreq⟩, ?_⟩
      cases ht : mc.2 == "" with
      | true => left; simp
      | false =>
        right
        refine ⟨⟨.assistant, .str mc.2⟩, by simp, rfl, ?_⟩
        simp [Json.truthy, bne, ht]

theorem parsers_ok_shape (prov : AIProvider) (ex : InterceptedExchange)
    (p : ParsedChatExchange) (h : PARSERS prov ex = .ok (some p)) :
    p.userMessages ≠ [] ∧ (∀ pm ∈ p.userMessages, pm.content.truthy = true)
    ∧ (p.assistantMessage = none ∨ ∃ am, p.assistantMessage = some am
        ∧ am.role = .assistant ∧ am.content.truthy = true) := by
  cases prov with
  | openai =>
    obtain ⟨⟨m, s, hphase⟩, hshape⟩ := parseOpenAI_ok_elim ex p h
    obtain ⟨h1, h2⟩ := openaiRequestPhase_ok _ _ _ _ hphase
    exact ⟨h1, h2, hshape⟩
  | google =>
    obtain ⟨⟨m, hphase⟩, hshape⟩ := parseGoogle_ok_elim ex p h
    obtain ⟨h1, h2⟩ := googleRequestPhase_ok _ _ _ hphase
    exact ⟨h1, h2, hshape⟩
  | anthropic =>
    obtain ⟨⟨m, s, hphase⟩, hshape⟩ := parseAnthropic_ok_elim ex p h
    obtain ⟨h1, h2⟩ := anthropicRequestPhase_ok _ _ _ _ hphase
    exact ⟨h1, h2, hshape⟩

theorem parsers_userMessages_inv (prov : AIProvider) (ex₁ ex₂ : InterceptedExchange)
    (p₁ p₂ : ParsedChatExchange) (hb : ex₁.request.body = ex₂.request.body)
    (h₁ : PARSERS prov ex₁ = .ok (some p₁)) (h₂ : PARSERS prov ex₂ = .ok (some p₂)) :
    p₁.userMessages = p₂.userMessages := by
  cases prov with
  | openai =>
    obtain ⟨⟨m₁, s₁, e₁⟩, _⟩ := parseOpenAI_ok_elim ex₁ p₁ h₁
    obtain ⟨⟨m₂, s₂, e₂⟩, _⟩ := parseOpenAI_ok_elim ex₂ p₂ h₂
    rw [hb] at e₁
    have h3 := e₁.symm.trans e₂
    simp only [Except.ok.injEq, Option.some.injEq, Prod.mk.injEq] at h3
    exact h3.1
  | google =>
    obtain ⟨⟨m₁, e₁⟩, _⟩ := parseGoogle_ok_elim ex₁ p₁ h₁
    obtain ⟨⟨m₂, e₂⟩, _⟩ := parseGoogle_ok_elim ex₂ p₂ h₂
    rw [hb] at e₁
    have h3 := e₁.symm.trans e₂
    simp only [Except.ok.injEq, Option.some.injEq, Prod.mk.injEq] at h3
    exact h3.1
  | anthropic =>
    obtain ⟨⟨m₁, s₁, e₁⟩, _⟩ := parseAnthropic_ok_elim ex₁ p₁ h₁
    obtain ⟨⟨m₂, s₂, e₂⟩, _⟩ := parseAnthropic_ok_elim ex₂ p₂ h₂
    rw [hb] at e₁
    have h3 := e₁.symm.trans e₂
    simp only [Except.ok.injEq, Option.some.injEq, Prod.mk.injEq] at h3
    exact h3.1

theorem converter_ok_none (now : String) (ex : InterceptedExchange)
    (parsed : ParsedChatExchange)
    (hp : PARSERS ex.request.endpoint.provider ex = .ok (some parsed))
    (hl : (parsed.userMessages.filter (fun m => m.role == Role.user)).getLast? = none) :
    parseExchangeToConversation now ex = .ok none := by
  unfold parseExchangeToConversation
  dsimp only
  rw [hp]
  simp only [except_bind_ok]
  rw [hl]

theorem converter_ok_str (now : String) (ex : InterceptedExchange)
    (parsed : ParsedChatExchange) (lastU : ParsedMessage) (s : String)
    (hp : PARSERS ex.request.endpoint.provider ex = .ok (some parsed))
    (hl : (parsed.userMessages.filter (fun m => m.role == Role.user)).getLast?
        = some lastU)
    (hc : lastU.content = .str s) :
    ∃ conv, parseExchangeToConversation now ex = .ok (some conv)
      ∧ conv.title = truncateClean s 100
      ∧ conv.messages.map (fun m => (m.role, m.content))
          = (Role.user, lastU.content)
              :: (match parsed.assistantMessage with
                  | some am => [(Role.assistant, am.content)]
                  | none => []) := by
  unfold parseExchangeToConversation
  dsimp only
  rw [hp]
  simp only [except_bind_ok]
  rw [hl]
  dsimp only
  rw [hc]
  simp only [jsTruncate, except_bind_ok]
  refine ⟨_, rfl, rfl, ?_⟩
  cases ham : parsed.assistantMessage with
  | none => simp [ham]
  | some am => simp [ham]

theorem openaiRequestPhase_badJson (body : String) (h : jsonParse body = none) :
    openaiRequestPhase body = .ok none := by
  unfold openaiRequestPhase; rw [h]

theorem googleRequestPhase_badJson (body : String) (h : jsonParse body = none) :
    googleRequestPhase body = .ok none := by
  unfold googleRequestPhase; rw [h]

theorem anthropicRequestPhase_badJson (body : String) (h : jsonParse body = none) :
    anthropicRequestPhase body = .ok none := by
  unfold anthropicRequestPhase; rw [h]

theorem parseOpenAI_badJson (ex : InterceptedExchange)
    (h : jsonParse ex.request.body = none) : parseOpenAIExchange ex = .ok none := by
  unfold parseOpenAIExchange
  rw [openaiRequestPhase_badJson _ h]
  rfl

theorem parseGoogle_badJson (ex : InterceptedExchange)
    (h : jsonParse ex.request.body = none) : parseGoogleExchange ex = .ok none := by
  unfold parseGoogleExchange
  rw [googleRequestPhase_badJson _ h]
  rfl

theorem parseAnthropic_badJson (ex : InterceptedExchange)
    (h : jsonParse ex.request.body = none) : parseAnthropicExchange ex = .ok none := by
  unfold parseAnthropicExchange
  rw [anthropicRequestPhase_badJson _ h]
  rfl

theorem openaiRequestPhase_noMessages (body : String) (j : Json)
    (hj : jsonParse body = some j) (hnull : j ≠ .null)
    (hmiss : ∀ msgs : List Json, jsGetD j "messages" ≠ some (.arr msgs)) :
    openaiRequestPhase body = .ok none := by
  unfold openaiRequestPhase
  rw [hj]
  dsimp only
  rw [jsGet_eq_getD j "messages" hnull]
  simp only [except_bind_ok]

theorem googleRequestPhase_noContents (body : String) (j : Json)
    (hj : jsonParse body = some j) (hnull : j ≠ .null)
    (hmiss : ∀ cs : List Json, jsGetD j "contents" ≠ some (.arr cs)) :
    googleRequestPhase body = .ok none := by
  unfold googleRequestPhase
  rw [hj]
  dsimp only
  rw [jsGet_eq_getD j "contents" hnull]
  simp only [except_bind_ok]

theorem anthropicRequestPhase_noMessages (body : String) (j : Json)
    (hj : jsonParse body = some j) (hnull : j ≠ .null)
    (hmiss : ∀ msgs : List Json, jsGetD j "messages" ≠ some (.arr msgs)) :
    anthropicRequestPhase body = .ok none := by
  unfold anthropicRequestPhase
  rw [hj]
  dsimp only
  rw [jsGet_eq_getD j "messages" hnull]
  simp only [except_bind_ok]

theorem parseOpenAI_noMessages (ex : InterceptedExchange) (j : Json)
    (hj : jsonParse ex.request.body = some j) (hnull : j ≠ .null)
    (hmiss : ∀ msgs : List Json, jsGetD j "messages" ≠ some (.arr msgs)) :
    parseOpenAIExchange ex = .ok none := by
  unfold parseOpenAIExchange
  rw [openaiRequestPhase_noMessages _ _ hj hnull hmiss]
  rfl

theorem parseGoogle_noContents (ex : InterceptedExchange) (j : Json)
    (hj : jsonParse ex.request.body = some j) (hnull : j ≠ .null)
    (hmiss : ∀ cs : List Json, jsGetD j "contents" ≠ some (.arr cs)) :
    parseGoogleExchange ex = .ok none := by
  unfold parseGoogleExchange
  rw [googleRequestPhase_noContents _ _ hj hnull hmiss]
  rfl

theorem parseAnthropic_noMessages (ex : InterceptedExchange) (j : Json)
    (hj : jsonParse ex.request.body = some j) (hnull : j ≠ .null)
    (hmiss : ∀ msgs : List Json, jsGetD j "messages" ≠ some (.arr msgs)) :
    parseAnthropicExchange ex = .ok none := by
  unfold parseAnthropicExchange
  rw [anthropicRequestPhase_noMessages _ _ hj hnull hmiss]
  rfl

theorem truncateClean_length_le (s : String) : (truncateClean s 100).length ≤ 100 := by
  unfold truncateClean
  dsimp only
  generalize trimChars (List.map (fun c => if c == '\n' then ' ' else c) s.data) = clean
  split
  · rename_i hle
    exact hle
  · rename_i hgt
    rw [String.length_append]
    have h1 : (String.mk (clean.take (100 - 3))).length = (clean.take (100 - 3)).length := rfl
    have h2 : ("..." : String).length = 3 := rfl
    have h3 : (clean.take (100 - 3)).length ≤ 97 :=
      List.length_take_le (100 - 3) clean
    omega

/-- C1: the wrapped `http`/`https` request function, the wrapped
`req.write`/`req.end`, and the patched global fetch all return to the caller
exactly the value (or exception) the original unpatched primitive produced,
for every possible outcome of the instrumentation and capture steps —
capture failures are swallowed by their `try/catch`, never propagated. -/
theorem interception_fail_open :
    (∀ (Req : Type) (parseUrl : String → Option UrlParts) (original : Except Unit Req)
        (args : List JsArg) (instrument : Except Unit Unit),
        wrappedRequest parseUrl original args instrument = original)
  ∧ (∀ (A : Type) (origResult : Except Unit A) (capture : Except Unit Unit),
        wrappedWrite origResult capture = origResult)
  ∧ (∀ (parseUrl : String → Option UrlParts) (maxBodyBytes : Nat) (input : FetchInput)
        (init? : Option RequestInitModel) (origFetch : Except Unit FetchResponseModel)
        (onExchange : InterceptedExchange → Except Unit Unit) (t₁ t₂ : Nat),
        patchedFetch parseUrl maxBodyBytes input init? origFetch onExchange t₁ t₂ = origFetch) := by
  refine ⟨?_, ?_, ?_⟩
  · intro Req parseUrl original args instrument
    cases original <;> rfl
  · intro A origResult capture
    rfl
  · intro parseUrl maxBodyBytes input init? origFetch onExchange t₁ t₂
    unfold patchedFetch
    cases input <;> dsimp only <;> repeat' (first | rfl | split)

/-- C2: a collector fed chunks totalling more than `maxBytes` keeps exactly
the `maxBytes`-byte prefix and reports truncation; fed chunks totalling less
it keeps everything untruncated; and any push on a truncated collector is a
no-op returning `false`. -/
theorem body_collector_cap :
    (∀ (maxBytes : Nat) (bufs : List (List Nat)),
      (maxBytes < sumLen bufs →
        (BodyCollector.pushAll (BodyCollector.init maxBytes) bufs).collected
            = (bufs.flatMap id).take maxBytes
        ∧ ((BodyCollector.pushAll (BodyCollector.init maxBytes) bufs).collected).length = maxBytes
        ∧ (BodyCollector.pushAll (BodyCollector.init maxBytes) bufs).isTruncated = true)
      ∧ (sumLen bufs < maxBytes →
        (BodyCollector.pushAll (BodyCollector.init maxBytes) bufs).collected = bufs.flatMap id
        ∧ (BodyCollector.pushAll (BodyCollector.init maxBytes) bufs).isTruncated = false))
  ∧ (∀ (c : BodyCollector) (buf : List Nat), c.isTruncated = true → c.push buf = (false, c)) := by
  constructor
  · intro maxBytes bufs
    obtain ⟨hm, ht, htr, hc⟩ :=
      pushAll_characterization maxBytes bufs (BodyCollector.init maxBytes) []
        rfl (by simp [BodyCollector.init]) (by simp [BodyCollector.init])
        (by simp [BodyCollector.init])
    simp only [List.length_nil, List.nil_append, Nat.zero_add] at ht htr hc
    constructor
    · intro hlt
      refine ⟨?_, ?_, ?_⟩
      · simp only [BodyCollector.collected]
        exact hc
      · simp only [BodyCollector.collected]
        rw [hc, List.length_take, flatMap_id_length]
        omega
      · simp only [BodyCollector.isTruncated]
        rw [htr, decide_eq_true_eq]
        exact hlt
    · intro hlt
      refine ⟨?_, ?_⟩
      · simp only [BodyCollector.collected]
        rw [hc, List.take_of_length_le (by rw [flatMap_id_length]; omega)]
      · simp only [BodyCollector.isTruncated]
        rw [htr, decide_eq_false_iff_not]
        omega
  · intro c buf h
    simp only [BodyCollector.isTruncated] at h
    unfold BodyCollector.push
    rw [if_pos h]

theorem body_collector_cap_witness :
    (BodyCollector.pushAll (BodyCollector.init 3) [[1, 2], [3, 4]]).collected = [1, 2, 3]
    ∧ (BodyCollector.pushAll (BodyCollector.init 3) [[1, 2], [3, 4]]).isTruncated = true
    ∧ (BodyCollector.pushAll (BodyCollector.init 3) [[1, 2], [3, 4]]).push [5]
        = (false, BodyCollector.pushAll (BodyCollector.init 3) [[1, 2], [3, 4]])
    ∧ (BodyCollector.pushAll (BodyCollector.init 10) [[1], [2]]).collected = [1, 2]
    ∧ (BodyCollector.pushAll (BodyCollector.init 10) [[1], [2]]).isTruncated = false := by
  obtain ⟨h1a, _, h1c⟩ := (body_collector_cap.1 3 [[1, 2], [3, 4]]).1 (by decide)
  obtain ⟨h2a, h2b⟩ := (body_collector_cap.1 10 [[1], [2]]).2 (by decide)
  exact ⟨h1a.trans (by decide), h1c, body_collector_cap.2 _ [5] h1c,
    h2a.trans (by decide), h2b⟩

set_option maxRecDepth 100000 in
/-- C3 (amended): the conversation id hashes the tool tag, the minute bucket
`floor(timestamp / 60000)` and the user text, so equal minute buckets give
equal ids; 90 seconds always crosses a minute-bucket boundary, and at the
concrete exchanges 90 seconds apart the ids indeed differ.  Two timestamps
10 seconds apart give the same id only when they share a minute bucket. -/
theorem conversation_id_minute_bucket :
    (∀ (source text : String) (t₁ t₂ : Nat), t₁ / 60000 = t₂ / 60000 →
        generateConversationId source text t₁ = generateConversationId source text t₂)
  ∧ (∀ t : Nat, t / 60000 ≠ (t + 90000) / 60000)
  ∧ generateConversationId "copilot" "hello" 0 ≠ generateConversationId "copilot" "hello" 90000 := by
  refine ⟨?_, ?_, ?_⟩
  · intro source text t₁ t₂ h
    unfold generateConversationId
    rw [h]
  · intro t
    omega
  · decide

theorem conversation_id_minute_bucket_witness :
    generateConversationId "copilot" "hello" 10000 = generateConversationId "copilot" "hello" 20000
    ∧ (0 : Nat) / 60000 ≠ (0 + 90000) / 60000 :=
  ⟨conversation_id_minute_bucket.1 "copilot" "hello" 10000 20000 (by decide),
   conversation_id_minute_bucket.2.1 0⟩

set_option maxRecDepth 100000 in
/-- C3 counterexample: the claim "request timestamps 10 seconds apart always
produce the same conversation id" fails at timestamps 59000 and 69000 (10
seconds apart but in different minute buckets). -/
theorem conversation_id_ten_seconds_counterexample :
    generateConversationId "copilot" "hello" 59000 ≠ generateConversationId "copilot" "hello" 69000 := by
  decide

/-- C7: `handleExchange` forwards an exchange to the `onExchange` event if
and only if the response status is in [200, 300), forwarding it unchanged,
and discards everything else (totally — no exception can escape its
`try/catch`). -/
theorem non2xx_filtered :
    ∀ ex : InterceptedExchange,
      ((handleExchange ex).isSome = true ↔
        (200 ≤ ex.response.statusCode ∧ ex.response.statusCode < 300))
      ∧ (∀ ex', handleExchange ex = some ex' → ex' = ex) := by
  intro ex
  constructor
  · unfold handleExchange
    split
    · next h => simp [h]
    · next h => simp [h]
  · intro ex' h
    unfold handleExchange at h
    split at h
    · exact (Option.some.inj h).symm
    · cases h

theorem non2xx_filtered_witness :
    (handleExchange exBasic).isSome = true ∧ handleExchange exStatus404 = none := by
  constructor
  · exact (non2xx_filtered exBasic).1.mpr (by constructor <;> decide)
  · rfl

set_option maxRecDepth 100000 in
set_option maxHeartbeats 2000000 in
/-- C8 (amended): file-extractor identifiers (`deterministicId`) are SHA-256
content hashes laid out as five lowercase-hex groups 8-4-4-4-12; the
converter's conversation ids are also deterministic content hashes but have
the form `int-` followed by 16 hex digits, which is not the UUID-like
layout.  Both generators are pure functions, so identical inputs always
yield identical identifiers. -/
theorem deterministic_ids :
    (∀ input : String, uuidLayout (deterministicId input) = true)
  ∧ (∀ (source msg : String) (t : Nat), ∃ h16 : String,
        generateConversationId source msg t = "int-" ++ h16 ∧ h16.length = 16)
  ∧ (∀ (source msg : String) (t : Nat),
        uuidLayout (generateConversationId source msg t) = false) := by
  refine ⟨?_, ?_, ?_⟩
  · intro input
    have hlen := sha256HexChars_length input
    have hhex := sha256HexChars_hex input
    unfold deterministicId deterministicIdChars uuidFormat
    apply uuidLayout_build
    · simp [List.length_take, hlen]
    · simp [List.length_take, List.length_drop, hlen]
    · simp [List.length_take, List.length_drop, hlen]
    · simp [List.length_take, List.length_drop, hlen]
    · simp [List.length_take, List.length_drop, hlen]
    · exact fun c hc => hhex c (List.mem_of_mem_take hc)
    · exact fun c hc => hhex c (List.mem_of_mem_drop (List.mem_of_mem_take hc))
    · intro c hc
      rcases List.mem_cons.mp hc with h | h
      · subst h; decide
      · exact hhex c (List.mem_of_mem_drop (List.mem_of_mem_take h))
    · intro c hc
      rcases List.mem_cons.mp hc with h | h
      · subst h; exact isHexLower_hexDigitChar _
      · exact hhex c (List.mem_of_mem_drop (List.mem_of_mem_take h))
    · exact fun c hc => hhex c (List.mem_of_mem_drop (List.mem_of_mem_take hc))
  · intro source msg t
    refine ⟨_, rfl, ?_⟩
    show (String.mk _).length = 16
    simp [String.length, List.length_take, sha256HexChars_length]
  · intro source msg t
    rfl

set_option maxRecDepth 100000 in
/-- C8 counterexample: a conversation id generated by the converter is not a
UUID-like 8-4-4-4-12 hex string (it starts with the non-hex prefix `int-`). -/
theorem conversation_id_not_uuid_counterexample :
    uuidLayout (generateConversationId "copilot" "hello" 0) = false := rfl

/-- C9: the SSE parser equals the specified algorithm (split lines, keep
`data:` lines, strip, skip `[DONE]`, JSON-decode, silently drop failures),
and on the specified concrete input yields exactly the two decoded objects
in order. -/
theorem sse_parser_spec :
    (∀ raw : String, parseSSEEvents raw = sseEventsSpec raw)
  ∧ parseSSEEvents
      "data: \x7b\"a\":1\x7d\n\ndata: [DONE]\n\ndata: not-json\n\ndata: \x7b\"a\":2\x7d\n"
      = [Json.obj [("a", Json.num 1 0)], Json.obj [("a", Json.num 2 0)]] := by
  constructor
  · intro raw
    unfold parseSSEEvents sseEventsSpec
    simpa using parseSSE_go (splitOnChar '\n' raw.data) []
  · rfl

/-- C10 (amended): the protobuf scan loop strictly advances its offset on
every iteration regardless of byte content (this is exactly the fact that
makes `extractGo` well-founded, so extraction terminates on every buffer),
and the varint reader consumes at most 6 bytes — not 5 — before giving
up. -/
theorem protobuf_scanner_termination :
    (∀ (buffer : List Nat) (offset : Nat), offset < (scanStep buffer offset).1)
  ∧ (∀ (buffer : List Nat) (offset : Nat), (readVarint buffer offset).bytesRead ≤ 6)
  ∧ (∀ buffer : List Nat, extractProtobufStrings buffer = extractGo buffer 0 []) :=
  ⟨scanStep_advance, readVarint_bytesRead_le, fun _ => rfl⟩

/-- C10 counterexample: on six continuation bytes the varint reader consumes
6 bytes, refuting "at most 5 bytes". -/
theorem varint_six_bytes_counterexample :
    (readVarint [0x80, 0x80, 0x80, 0x80, 0x80, 0x80, 0x80, 0x80] 0).bytesRead = 6
    ∧ ¬((readVarint [0x80, 0x80, 0x80, 0x80, 0x80, 0x80, 0x80, 0x80] 0).bytesRead ≤ 5) := by
  exact ⟨rfl, by decide⟩

/-- C5 (amended): the three provider parsers return `.ok none` on a request
body that is not valid JSON, and on a non-null JSON body lacking the
provider's expected top-level array field; the user messages they return
depend only on the request body; a successful parse always carries a
non-empty user-message list and an assistant message that is either absent
or a truthy assistant turn; and on `exRequestOnly` (unparseable response)
the OpenAI parser returns the one user message with no assistant message.
Totality, however, fails: see the numeric-role counterexample. -/
theorem parser_totality :
    (∀ ex : InterceptedExchange, jsonParse ex.request.body = none →
        parseOpenAIExchange ex = .ok none ∧ parseGoogleExchange ex = .ok none
          ∧ parseAnthropicExchange ex = .ok none)
    ∧ (∀ (ex : InterceptedExchange) (j : Json), jsonParse ex.request.body = some j →
        j ≠ .null →
        ((∀ msgs : List Json, jsGetD j "messages" ≠ some (.arr msgs)) →
            parseOpenAIExchange ex = .ok none ∧ parseAnthropicExchange ex = .ok none)
        ∧ ((∀ cs : List Json, jsGetD j "contents" ≠ some (.arr cs)) →
            parseGoogleExchange ex = .ok none))
    ∧ (∀ (prov : AIProvider) (ex₁ ex₂ : InterceptedExchange)
          (p₁ p₂ : ParsedChatExchange),
        ex₁.request.body = ex₂.request.body →
        PARSERS prov ex₁ = .ok (some p₁) → PARSERS prov ex₂ = .ok (some p₂) →
        p₁.userMessages = p₂.userMessages)
    ∧ (∀ (prov : AIProvider) (ex : InterceptedExchange) (p : ParsedChatExchange),
        PARSERS prov ex = .ok (some p) →
        p.userMessages ≠ [] ∧ (p.assistantMessage = none
          ∨ ∃ am, p.assistantMessage = some am ∧ am.role = .assistant
              ∧ am.content.truthy = true))
    ∧ (parseOpenAIExchange exRequestOnly).map
        (Option.map (fun p => (p.userMessages.length, p.assistantMessage)))
      = .ok (some (1, none)) := by
  refine ⟨?_, ?_, ?_, ?_, ?_⟩
  · intro ex h
    exact ⟨parseOpenAI_badJson ex h, parseGoogle_badJson ex h,
      parseAnthropic_badJson ex h⟩
  · intro ex j hj hnull
    exact ⟨fun hmiss => ⟨parseOpenAI_noMessages ex j hj hnull hmiss,
        parseAnthropic_noMessages ex j hj hnull hmiss⟩,
      fun hmiss => parseGoogle_noContents ex j hj hnull hmiss⟩
  · exact parsers_userMessages_inv
  · intro prov ex p h
    obtain ⟨h1, _, h3⟩ := parsers_ok_shape prov ex p h
    exact ⟨h1, h3⟩
  · rfl

/-- Witness for C5: the invalid-JSON case at `exInvalidJson` and the
response-independence of user messages across `exRequestOnly` and
`exOtherResponse`. -/
theorem parser_totality_witness :
    parseOpenAIExchange exInvalidJson = .ok none
      ∧ parsedRequestOnly.userMessages = parsedOtherResponse.userMessages :=
  ⟨(parser_totality.1 exInvalidJson (by rfl)).1,
   parser_totality.2.2.1 .openai exRequestOnly exOtherResponse parsedRequestOnly
     parsedOtherResponse rfl (by rfl) (by rfl)⟩

/-- C5 counterexample: a truthy non-string `role` (the number 1) makes the
OpenAI parser throw (`role.toLowerCase()` on a number), so the parsers are
not total. -/
theorem parser_throws_counterexample :
    parseOpenAIExchange exNumericRole = .error () := by rfl

/-- C6 (amended): given a successfully parsed exchange, the converter
returns `none` when there is no user-role message; and when the last
user-role message's content is a string `s`, it returns a conversation
titled with `s` newline-flattened and truncated to at most 100 characters,
whose messages are exactly the last user turn followed by the assistant
reply if present — earlier turns are never included.  On non-string
content the converter instead throws: see the numeric-content
counterexample. -/
theorem converter_shape :
    ∀ (now : String) (ex : InterceptedExchange) (parsed : ParsedChatExchange),
      PARSERS ex.request.endpoint.provider ex = .ok (some parsed) →
      ((parsed.userMessages.filter (fun m => m.role == Role.user)).getLast? = none →
          parseExchangeToConversation now ex = .ok none)
      ∧ (∀ (lastU : ParsedMessage) (s : String),
          (parsed.userMessages.filter (fun m => m.role == Role.user)).getLast?
              = some lastU →
          lastU.content = .str s →
          ∃ conv, parseExchangeToConversation now ex = .ok (some conv)
            ∧ conv.title = truncateClean s 100
            ∧ conv.title.length ≤ 100
            ∧ conv.messages.map (fun m => (m.role, m.content))
                = (Role.user, lastU.content)
                    :: (match parsed.assistantMessage with
                        | some am => [(Role.assistant, am.content)]
                        | none => [])) := by
  intro now ex parsed hp
  constructor
  · intro hlast
    exact converter_ok_none now ex parsed hp hlast
  · intro lastU s hlast hc
    obtain ⟨conv, h1, h2, h3⟩ := converter_ok_str now ex parsed lastU s hp hlast hc
    exact ⟨conv, h1, h2, by rw [h2]; exact truncateClean_length_le s, h3⟩

set_option maxRecDepth 100000 in
set_option maxHeartbeats 2000000 in
/-- Witness for C6 at the concrete exchange `exBasic`. -/
theorem converter_shape_witness :
    ∃ conv, parseExchangeToConversation "2024-01-01T00:00:00.000Z" exBasic
        = .ok (some conv)
      ∧ conv.title = truncateClean "hello world" 100
      ∧ conv.title.length ≤ 100
      ∧ conv.messages.map (fun m => (m.role, m.content))
          = (Role.user, lastUserBasic.content)
              :: (match parsedBasic.assistantMessage with
                  | some am => [(Role.assistant, am.content)]
                  | none => []) :=
  (converter_shape "2024-01-01T00:00:00.000Z" exBasic parsedBasic (by rfl)).2
    lastUserBasic "hello world" (by rfl) (by rfl)

/-- C6 counterexample: a truthy non-string user content (the number 5)
reaches `truncate`, whose `.replace` call throws on a non-string receiver,
so the converter throws instead of building a conversation. -/
theorem converter_numeric_content_counterexample :
    parseExchangeToConversation "2024-01-01T00:00:00.000Z" exNumericContent
      = .error () := by rfl

end ChatSync
